import Mathlib

/-!
Verification development for the worker_ai task pipeline.

The definitions below are a shallow embedding of the Python sources
(src/ai.py, src/sync.py, src/lib/task.py, src/lib/task_item.py,
src/lib/ai_prompt.py).  Database tables are modelled as lists of rows;
each SQL statement executed by the code is modelled by a function that
performs the corresponding transformation of those lists; fallible code
returns an error value.  External collaborators (the hashlib digest and
the rapidfuzz similarity ratio) are modelled by executable stand-ins that
preserve the properties the code relies on; no claim depends on their
exact output values.
-/

namespace WorkerAi

/-- Value carried in a JSON response element or a Python dict: an integer, a
string, or Python None.  vNone also stands for a missing key, matching the
result of dict.get on an absent key. -/
inductive PyVal where
  | vInt (n : Int)
  | vStr (s : String)
  | vNone
deriving DecidableEq, Repr

/-- Top-level attributes of module src/lib/task_item.py: the names it imports
(lines 1-7) and the functions it defines, read off the source file. -/
def taskItemModuleAttrs : List String :=
  ["ast", "hashlib", "json", "re", "Any", "Dict", "Iterable", "List", "Optional",
   "Sequence", "Set", "Tuple", "fuzz",
   "sanitize_identifier", "calculate_hash", "calculate_similarity_score",
   "rows_to_dicts", "extract_single_value", "append_task_error",
   "fetch_pending_task_items", "build_original_text_mappings",
   "_extract_json_text", "parse_json_response", "update_task_items_from_json",
   "append_task_description", "update_task_stage_and_markers",
   "build_fetch_query", "resynch_remote_batch", "fetch_remote_batch"]

/-- Names that src/ai.py (lines 19-26) imports from lib.task_item. -/
def aiTaskItemImportList : List String :=
  ["append_task_error", "build_processing_table", "fetch_pending_task_items",
   "parse_json_response", "update_processing_table_with_response",
   "update_task_items_from_table"]

/-- Semantics of a Python from-import statement: the importing module loads
past the import only when every imported name is an attribute of the imported
module; otherwise ImportError is raised and no later statement of the
importing module runs. -/
def pythonFromImportOk (moduleAttrs imports : List String) : Bool :=
  imports.all (fun n => moduleAttrs.contains n)

/-- C1 (code bug): the AI runner src/ai.py never loads.  Its import list from
lib.task_item names build_processing_table, update_processing_table_with_response
and update_task_items_from_table, none of which src/lib/task_item.py defines,
so every invocation raises ImportError at lines 19-26, before main() and before
the task-selection step. -/
theorem ai_runner_import_error :
    pythonFromImportOk taskItemModuleAttrs aiTaskItemImportList = false ∧
    "build_processing_table" ∈ aiTaskItemImportList ∧
    "build_processing_table" ∉ taskItemModuleAttrs ∧
    "update_processing_table_with_response" ∈ aiTaskItemImportList ∧
    "update_processing_table_with_response" ∉ taskItemModuleAttrs ∧
    "update_task_items_from_table" ∈ aiTaskItemImportList ∧
    "update_task_items_from_table" ∉ taskItemModuleAttrs := by
  decide

/-- Row of the local task table, restricted to the columns the embedded code
paths read or write. -/
structure TaskRow where
  id_task : Nat
  status : String
  sync_stage : String
  hash_method : Option String
  marker_id : Int
  marker_max_id : Int
  records_total : Int
  records_fetched : Int
  records_updated : Int
  records_processed : Int
  description : Option String
  error_log : Option String
deriving DecidableEq, Repr

/-- Statuses accepted by get_next_task: src/lib/task.py line 8 filters
status IN ('new','sync','resync'). -/
def syncEligibleStatuses : List String := ["new", "sync", "resync"]

/-- Statuses accepted by get_next_task_to_ai: src/lib/task.py line 19 filters
status IN ('ai'). -/
def aiEligibleStatuses : List String := ["ai"]

/-- Fold step realising ORDER BY id_task ASC LIMIT 1: keep the row with the
least id_task seen so far (the first such row when ids repeat). -/
def minByIdStep (acc : Option TaskRow) (t : TaskRow) : Option TaskRow :=
  match acc with
  | none => some t
  | some a => if t.id_task < a.id_task then some t else some a

/-- Row returned by ORDER BY id_task ASC LIMIT 1 over a list of rows. -/
def minByIdTask (rows : List TaskRow) : Option TaskRow :=
  rows.foldl minByIdStep none

/-- Embeds get_next_task (src/lib/task.py lines 4-13). -/
def get_next_task (tasks : List TaskRow) : Option TaskRow :=
  minByIdTask (tasks.filter (fun t => syncEligibleStatuses.contains t.status))

/-- Embeds get_next_task_to_ai (src/lib/task.py lines 15-24). -/
def get_next_task_to_ai (tasks : List TaskRow) : Option TaskRow :=
  minByIdTask (tasks.filter (fun t => aiEligibleStatuses.contains t.status))

theorem minByIdTask_go (rows : List TaskRow) :
    ∀ (acc : Option TaskRow) (t : TaskRow),
      rows.foldl minByIdStep acc = some t →
      (t ∈ rows ∨ acc = some t) ∧ (∀ u ∈ rows, t.id_task ≤ u.id_task) ∧
      (∀ a, acc = some a → t.id_task ≤ a.id_task) := by
  induction rows with
  | nil =>
    intro acc t h
    simp only [List.foldl_nil] at h
    refine ⟨Or.inr h, by simp, ?_⟩
    intro a ha
    rw [h] at ha
    cases ha
    exact le_refl _
  | cons x xs ih =>
    intro acc t h
    simp only [List.foldl_cons] at h
    obtain ⟨hmem, hall, hacc⟩ := ih (minByIdStep acc x) t h
    have hstep : ∀ b, minByIdStep acc x = some b →
        (b = x ∨ acc = some b) ∧ b.id_task ≤ x.id_task ∧
        (∀ c, acc = some c → b.id_task ≤ c.id_task) := by
      intro b hb
      cases acc with
      | none =>
        simp only [minByIdStep] at hb
        cases hb
        exact ⟨Or.inl rfl, le_refl _, by intro c hc; cases hc⟩
      | some a =>
        simp only [minByIdStep] at hb
        by_cases hlt : x.id_task < a.id_task
        · rw [if_pos hlt] at hb
          cases hb
          refine ⟨Or.inl rfl, le_refl _, ?_⟩
          intro c hc; cases hc; exact le_of_lt hlt
        · rw [if_neg hlt] at hb
          cases hb
          refine ⟨Or.inr rfl, le_of_not_lt hlt, ?_⟩
          intro c hc; cases hc; exact le_refl _
    have hx : t.id_task ≤ x.id_task := by
      cases hsome : minByIdStep acc x with
      | none =>
        cases acc with
        | none => simp [minByIdStep] at hsome
        | some a =>
          simp only [minByIdStep] at hsome
          by_cases hlt : x.id_task < a.id_task
          · rw [if_pos hlt] at hsome; cases hsome
          · rw [if_neg hlt] at hsome; cases hsome
      | some b =>
        obtain ⟨_, hbx, _⟩ := hstep b hsome
        exact le_trans (hacc b hsome) hbx
    constructor
    · cases hmem with
      | inl hin => exact Or.inl (List.mem_cons_of_mem _ hin)
      | inr heq =>
        obtain ⟨hbx, _, _⟩ := hstep t heq
        cases hbx with
        | inl hbx => exact Or.inl (hbx ▸ List.mem_cons_self _ _)
        | inr hbx => exact Or.inr hbx
    constructor
    · intro u hu
      cases List.mem_cons.mp hu with
      | inl hux => exact hux ▸ hx
      | inr hux => exact hall u hux
    · intro a ha
      cases hsome : minByIdStep acc x with
      | none =>
        cases acc with
        | none => simp [minByIdStep] at hsome
        | some a' =>
          simp only [minByIdStep] at hsome
          by_cases hlt : x.id_task < a'.id_task
          · rw [if_pos hlt] at hsome; cases hsome
          · rw [if_neg hlt] at hsome; cases hsome
      | some b =>
        obtain ⟨_, _, hrest⟩ := hstep b hsome
        exact le_trans (hacc b hsome) (hrest a ha)

theorem minByIdTask_spec (rows : List TaskRow) (t : TaskRow)
    (h : minByIdTask rows = some t) :
    t ∈ rows ∧ ∀ u ∈ rows, t.id_task ≤ u.id_task := by
  obtain ⟨hmem, hall, _⟩ := minByIdTask_go rows none t h
  refine ⟨?_, hall⟩
  cases hmem with
  | inl hin => exact hin
  | inr heq => cases heq

/-- Task row with status sync, the C2 counterexample input. -/
def syncStatusTask : TaskRow :=
  { id_task := 1, status := "sync", sync_stage := "fetch",
    hash_method := some "sha256", marker_id := 0, marker_max_id := 0,
    records_total := 0, records_fetched := 0, records_updated := 0,
    records_processed := 0, description := none, error_log := none }

/-- C2 (counterexample): on a table holding one task whose status is sync, the
sync entry point selects that task, yet sync is not in the claimed eligible set
of new, fetch and resync; the set in src/lib/task.py line 8 is new, sync,
resync. -/
theorem get_next_task_selects_status_sync :
    get_next_task [syncStatusTask] = some syncStatusTask ∧
    syncStatusTask.status ∉ (["new", "fetch", "resync"] : List String) := by
  decide

/-- C2 (amended): the sync entry point always selects the oldest (lowest-id)
task whose status lies in the code's sync-eligible set new, sync, resync; the
AI entry point always selects the oldest task whose status is ai; and no status
belongs to both sets, so the two selection predicates are disjoint. -/
theorem task_selection_oldest_and_disjoint :
    (∀ tasks t, get_next_task tasks = some t →
        t ∈ tasks ∧ t.status ∈ syncEligibleStatuses ∧
        ∀ u ∈ tasks, u.status ∈ syncEligibleStatuses → t.id_task ≤ u.id_task) ∧
    (∀ tasks t, get_next_task_to_ai tasks = some t →
        t ∈ tasks ∧ t.status ∈ aiEligibleStatuses ∧
        ∀ u ∈ tasks, u.status ∈ aiEligibleStatuses → t.id_task ≤ u.id_task) ∧
    (∀ s : String, ¬(s ∈ syncEligibleStatuses ∧ s ∈ aiEligibleStatuses)) := by
  refine ⟨?_, ?_, ?_⟩
  · intro tasks t h
    obtain ⟨hmem, hall⟩ := minByIdTask_spec _ t h
    rw [List.mem_filter] at hmem
    refine ⟨hmem.1, ?_, ?_⟩
    · have := hmem.2
      simpa [syncEligibleStatuses] using this
    · intro u hu hus
      refine hall u ?_
      rw [List.mem_filter]
      exact ⟨hu, by simpa [syncEligibleStatuses] using hus⟩
  · intro tasks t h
    obtain ⟨hmem, hall⟩ := minByIdTask_spec _ t h
    rw [List.mem_filter] at hmem
    refine ⟨hmem.1, ?_, ?_⟩
    · have := hmem.2
      simpa [aiEligibleStatuses] using this
    · intro u hu hus
      refine hall u ?_
      rw [List.mem_filter]
      exact ⟨hu, by simpa [aiEligibleStatuses] using hus⟩
  · intro s hs
    obtain ⟨h1, h2⟩ := hs
    simp only [aiEligibleStatuses, List.mem_singleton] at h2
    subst h2
    simp [syncEligibleStatuses] at h1

/-- C2 witness: the amended selection theorem applied to a concrete two-task
table, discharging its hypotheses there. -/
theorem task_selection_witness :
    syncStatusTask ∈ [syncStatusTask] ∧
    syncStatusTask.status ∈ syncEligibleStatuses ∧
    ∀ u ∈ [syncStatusTask], u.status ∈ syncEligibleStatuses →
      syncStatusTask.id_task ≤ u.id_task :=
  task_selection_oldest_and_disjoint.1 [syncStatusTask] syncStatusTask (by decide)

/-- Record handed to the prompt builder: the keys build_correction_prompt reads
from each dict (src/lib/ai_prompt.py lines 59-68). -/
structure PromptRecord where
  remote_id : PyVal
  id_task_item : PyVal
  id : PyVal
  text_original : Option String
deriving DecidableEq, Repr

/-- Python truth value of the membership test of v in the pair None and the
empty string, used by the identifier fallback chain. -/
def pyBlank (v : PyVal) : Bool :=
  v = PyVal.vNone || v = PyVal.vStr ""

/-- Rendering of a value inside a Python f-string. -/
def pyValRender : PyVal → String
  | .vInt n => toString n
  | .vStr s => s
  | .vNone => "None"

/-- Python str.replace for a single-character pattern: every occurrence of the
character is replaced. -/
def replaceChar (s : String) (c r : Char) : String :=
  ⟨s.data.map (fun x => if x = c then r else x)⟩

/-- ASCII whitespace recognised by Python str.strip.  The Unicode whitespace
code points, which this pipeline never feeds to strip, are not modelled. -/
def pyIsSpace (c : Char) : Bool :=
  c = ' ' || c = '\t' || c = '\n' || c = '\r' || c = '\x0b' || c = '\x0c'

/-- Python str.strip with no argument: drop whitespace from both ends. -/
def pyStrip (s : String) : String :=
  ⟨((s.data.dropWhile pyIsSpace).reverse.dropWhile pyIsSpace).reverse⟩

/-- Line that the loop body of build_correction_prompt appends for one record
(src/lib/ai_prompt.py lines 59-69). -/
def promptRecordLine (record : PromptRecord) : String :=
  let v1 := record.remote_id
  let v2 := if pyBlank v1 then record.id_task_item else v1
  let v3 := if pyBlank v2 then record.id else v2
  let idStr := if pyBlank v3 then "?" else pyValRender v3
  let text_value :=
    pyStrip (replaceChar (replaceChar (record.text_original.getD "") '\r' ' ') '\n' ' ')
  idStr ++ ". " ++ text_value

/-- Base rules list of build_correction_prompt (src/lib/ai_prompt.py
lines 20-27), reproduced verbatim. -/
def promptBaseRules : List String :=
  [ "- Każdy elemeny <INPUT> musi być w tablicy JSON <OUTPUT_FORMAT>.",
    "- Nie zmieniaj znaczenia zdań.",
    "- Każdy wpis ma mieć klucz \"remote_id\" zgodny z numerem zdania.",
    "- Nie dodawaj żadnych komentarzy ani tekstu poza JSON.",
    "- Każde zdanie traktuj jako osobną jednostkę.",
    "- Uwzględnij w odpowiedzi wszytskie <INPUT>. Jeżeli <INPUT> nie wymaga poprawy i ciąg zwracany jest identyczny, zwróć \x27text_corrected\x27 jako pusty string." ]

/-- Fixed lines of build_correction_prompt that precede the rules block
(src/lib/ai_prompt.py lines 33-43). -/
def promptHeadLines : List String :=
  [ "<SYSTEM>",
    "Model: zachowuj ścisły format JSON wyjścia i nie dodawaj żadnych komentarzy ani tekstu poza JSON.",
    "</SYSTEM>",
    "<TASK>",
    "Dla każdego elementu z listy <INPUT> sprawdź, czy wymaga korekty ortograficznej, interpunkcyjnej lub stylistycznej.",
    "Jeśli wymaga — popraw tekst.",
    "Jeśli nie wymaga — pozostaw \"text_corrected\" jako pusty string \"\".",
    "</TASK>",
    "<RULES>" ]

/-- Fixed lines of build_correction_prompt between the rules block and the
input block (src/lib/ai_prompt.py lines 47-57). -/
def promptFormatLines : List String :=
  [ "</RULES>",
    "<OUTPUT_FORMAT>",
    "[",
    "  \x7b\"remote_id\":1,\"text_corrected\":\"...\"\x7d",
    "]",
    "</OUTPUT_FORMAT>",
    "<INPUT>" ]

/-- Lines list built by build_correction_prompt (src/lib/ai_prompt.py
lines 6-77); the function returns these joined with newlines.  The per-record
loop is the foldl. -/
def build_correction_prompt_lines (records : List PromptRecord)
    (user_rules : Option String) : List String :=
  let user_rules_value := pyStrip (user_rules.getD "")
  let rules :=
    if user_rules_value ≠ "" then promptBaseRules ++ ["- " ++ user_rules_value]
    else promptBaseRules
  let lines := promptHeadLines ++ rules ++ promptFormatLines
  let lines := records.foldl (fun acc record => acc ++ [promptRecordLine record]) lines
  lines ++ ["</INPUT>"]

/-- Embeds build_correction_prompt (src/lib/ai_prompt.py line 77). -/
def build_correction_prompt (records : List PromptRecord)
    (user_rules : Option String) : String :=
  String.intercalate "\n" (build_correction_prompt_lines records user_rules)

/-- Lines of the prompt that precede the per-record lines, as a function of the
user rules. -/
def promptHeaderLines (user_rules : Option String) : List String :=
  let user_rules_value := pyStrip (user_rules.getD "")
  promptHeadLines ++
    (if user_rules_value ≠ "" then promptBaseRules ++ ["- " ++ user_rules_value]
     else promptBaseRules) ++ promptFormatLines

/-- First value of the list that is neither None nor the empty string. -/
def firstNonBlank (vs : List PyVal) : Option PyVal :=
  vs.find? (fun v => !(pyBlank v))

/-- Identifier printed for one record, stated as the spec phrases it: the
first non-blank among remote_id, id_task_item and id, else a question mark. -/
def promptIdentifier (record : PromptRecord) : String :=
  match firstNonBlank [record.remote_id, record.id_task_item, record.id] with
  | some v => pyValRender v
  | none => "?"

/-- Flattened record text: carriage returns and newlines replaced by spaces,
then stripped of leading and trailing whitespace. -/
def promptFlatten (t : Option String) : String :=
  pyStrip (replaceChar (replaceChar (t.getD "") '\r' ' ') '\n' ' ')

/-- Line form asserted by the claim as written: identifier fallback of
remote_id then id_task_item then the question mark, and flattening without the
final strip. -/
def claimedPromptLine (record : PromptRecord) : String :=
  (match firstNonBlank [record.remote_id, record.id_task_item] with
   | some v => pyValRender v
   | none => "?") ++ ". " ++
  replaceChar (replaceChar (record.text_original.getD "") '\r' ' ') '\n' ' '

theorem foldl_append_singleton {α β : Type} (f : α → β) :
    ∀ (l : List α) (acc : List β),
      l.foldl (fun a x => a ++ [f x]) acc = acc ++ l.map f := by
  intro l
  induction l with
  | nil => intro acc; simp
  | cons x xs ih => intro acc; simp [ih]

set_option maxRecDepth 8192 in
/-- C9 (counterexample): the prompt line emitted for a record is not of the
claimed form.  The code also strips the flattened text, so for original text
with a trailing newline the emitted line differs from the claimed one, and for
a record carrying only a generic id field the code prints that id where the
claimed fallback chain prints a question mark. -/
theorem prompt_line_counterexample :
    promptRecordLine ⟨.vInt 7, .vNone, .vNone, some "abc\n"⟩ = "7. abc" ∧
    claimedPromptLine ⟨.vInt 7, .vNone, .vNone, some "abc\n"⟩ = "7. abc " ∧
    ("7. abc" : String) ≠ "7. abc " ∧
    promptRecordLine ⟨.vNone, .vNone, .vInt 4, some "x"⟩ = "4. x" ∧
    claimedPromptLine ⟨.vNone, .vNone, .vInt 4, some "x"⟩ = "?. x" ∧
    build_correction_prompt_lines [⟨.vInt 7, .vNone, .vNone, some "abc\n"⟩] none
      = promptHeaderLines none ++ ["7. abc"] ++ ["</INPUT>"] := by
  refine ⟨by decide, by decide, by decide, by decide, by decide, ?_⟩
  simp only [build_correction_prompt_lines, promptHeaderLines,
    foldl_append_singleton promptRecordLine]
  decide

/-- C9 (amended): the prompt builder is deterministic and order-preserving,
emitting exactly one line per input record between the fixed header and the
closing input tag; each line is the record identifier, a dot and a space, and
the record text with carriage returns and newlines replaced by spaces and then
stripped of surrounding whitespace; the identifier is the first non-blank among
the external id, the internal id and the generic id field, else a question
mark. -/
theorem build_correction_prompt_structure :
    (∀ records user_rules,
        build_correction_prompt records user_rules =
          String.intercalate "\n"
            (promptHeaderLines user_rules ++ records.map promptRecordLine ++
              ["</INPUT>"])) ∧
    (∀ record, promptRecordLine record =
        promptIdentifier record ++ ". " ++ promptFlatten record.text_original) := by
  constructor
  · intro records user_rules
    simp only [build_correction_prompt, build_correction_prompt_lines,
      promptHeaderLines, foldl_append_singleton promptRecordLine]
  · intro record
    simp only [promptRecordLine, promptIdentifier, promptFlatten, firstNonBlank,
      List.find?]
    by_cases h1 : pyBlank record.remote_id
    · by_cases h2 : pyBlank record.id_task_item
      · by_cases h3 : pyBlank record.id <;> simp [h1, h2, h3]
      · simp [h1, h2]
    · simp [h1]

/-- Character class of the allow-pattern A-Za-z0-9_ in sanitize_identifier. -/
def allowedIdentChar (c : Char) : Bool :=
  c.isAlpha || c.isDigit || c = '_'

/-- Python semantics of re.match with the anchored allow-pattern of
sanitize_identifier: without MULTILINE the trailing anchor also matches just
before a single newline at the very end of the string, so the accepted strings
are a nonempty run of allowed characters optionally followed by one trailing
newline. -/
def identRegexAccepts (name : String) : Bool :=
  let cs := name.data
  let core := if cs.getLast? = some '\n' then cs.dropLast else cs
  (!core.isEmpty) && core.all allowedIdentChar

/-- Embeds sanitize_identifier (src/lib/task_item.py lines 10-25). -/
def sanitize_identifier (name : String) : Except String String :=
  if identRegexAccepts name then .ok name
  else .error ("Nieprawidłowa nazwa identyfikatora: " ++ name)

/-- Embeds build_fetch_query (src/lib/task_item.py lines 484-528): the SQL
text (with the Python f-string spelled as the concatenation it compiles to)
and the bound-parameter tuple, or the ValueError message. -/
def build_fetch_query (db_type table id_column text_column : String)
    (batch_size : Nat) (start_id : Int) : Except String (String × List Int) :=
  match sanitize_identifier table, sanitize_identifier id_column,
      sanitize_identifier text_column with
  | .error e, _, _ => .error e
  | .ok _, .error e, _ => .error e
  | .ok _, .ok _, .error e => .error e
  | .ok table, .ok id_column, .ok text_column =>
    if db_type = "mssql" then
      .ok ("SELECT TOP " ++ toString batch_size ++ " " ++ id_column ++
        " AS remote_id, " ++ text_column ++ " AS text_value FROM " ++ table ++
        " WHERE " ++ id_column ++ " > ? ORDER BY " ++ id_column ++ " ASC",
        [start_id])
    else if db_type = "sqlite" then
      .ok ("SELECT " ++ id_column ++ " AS remote_id, " ++ text_column ++
        " AS text_value FROM " ++ table ++ " WHERE " ++ id_column ++
        " > ? ORDER BY " ++ id_column ++ " ASC LIMIT " ++ toString batch_size,
        [start_id])
    else
      .ok ("SELECT " ++ id_column ++ " AS remote_id, " ++ text_column ++
        " AS text_value FROM " ++ table ++ " WHERE " ++ id_column ++
        " > %s ORDER BY " ++ id_column ++ " ASC LIMIT " ++ toString batch_size,
        [start_id])

/-- Query text demanded by the spec contract, assembled from the dialect's
pagination syntax and placeholder style. -/
def specFetchQueryText (db_type table id_column text_column : String)
    (batch_size : Nat) : String :=
  let placeholder := if db_type = "mssql" || db_type = "sqlite" then "?" else "%s"
  let selectHead :=
    if db_type = "mssql" then "SELECT TOP " ++ toString batch_size ++ " "
    else "SELECT "
  let tailLimit := if db_type = "mssql" then "" else " LIMIT " ++ toString batch_size
  selectHead ++ id_column ++ " AS remote_id, " ++ text_column ++
    " AS text_value FROM " ++ table ++ " WHERE " ++ id_column ++ " > " ++
    placeholder ++ " ORDER BY " ++ id_column ++ " ASC" ++ tailLimit

/-- Truth of an Except value carrying a result. -/
def exceptOk {ε α : Type} : Except ε α → Bool
  | .ok _ => true
  | .error _ => false

/-- C8 (counterexample): a table name with one trailing newline contains a
character outside the allow-pattern, yet build_fetch_query does not raise: the
anchored Python regex also matches just before a final newline, so the name is
interpolated into the query text unchanged. -/
theorem build_fetch_query_trailing_newline :
    build_fetch_query "mysql" "tbl\n" "id" "txt" 10 0 =
      .ok ("SELECT id AS remote_id, txt AS text_value FROM tbl\n WHERE id > %s ORDER BY id ASC LIMIT 10",
        [0]) ∧
    '\n' ∈ "tbl\n".data ∧ allowedIdentChar '\n' = false := by
  refine ⟨?_, by decide, by decide⟩
  rfl

/-- C8 (amended): for every dialect tag and batch size, on names accepted by
the sanitizer the fetch query builder produces the paginated select over
remote_id and text_value with the marker as a bound parameter, ascending order,
TOP for mssql and LIMIT otherwise, and the dialect's placeholder style; it
raises a validation error whenever some name is rejected; and the sanitizer
accepts exactly a nonempty run of characters from the allow-pattern optionally
followed by a single trailing newline (the newline exception is forced by the
counterexample). -/
theorem string_append_assoc (a b c : String) : a ++ b ++ c = a ++ (b ++ c) := by
  cases a; cases b; cases c
  simp only [HAppend.hAppend, Append.append, String.append]
  simp [List.append_assoc]

theorem build_fetch_query_contract :
    (∀ db_type table id_column text_column (b : Nat) (m : Int),
        identRegexAccepts table = true → identRegexAccepts id_column = true →
        identRegexAccepts text_column = true →
        build_fetch_query db_type table id_column text_column b m =
          .ok (specFetchQueryText db_type table id_column text_column b, [m])) ∧
    (∀ db_type table id_column text_column (b : Nat) (m : Int),
        (identRegexAccepts table = false ∨ identRegexAccepts id_column = false ∨
          identRegexAccepts text_column = false) →
        exceptOk (build_fetch_query db_type table id_column text_column b m) =
          false) ∧
    (∀ name : String, identRegexAccepts name = true ↔
        ((name.data ≠ [] ∧ name.data.all allowedIdentChar = true) ∨
         (name.data.getLast? = some '\n' ∧ name.data.dropLast ≠ [] ∧
           (name.data.dropLast).all allowedIdentChar = true))) := by
  refine ⟨?_, ?_, ?_⟩
  · intro db_type table id_column text_column b m ht hi hc
    by_cases h1 : db_type = "mssql"
    · simp [build_fetch_query, sanitize_identifier, ht, hi, hc,
        specFetchQueryText, h1, string_append_assoc]
    · by_cases h2 : db_type = "sqlite"
      · simp [build_fetch_query, sanitize_identifier, ht, hi, hc,
          specFetchQueryText, h1, h2, string_append_assoc]
        rw [show (" ASC" : String) ++ (" LIMIT " ++ toString b) =
          " ASC LIMIT " ++ toString b from by
            rw [← string_append_assoc]
            rw [show (" ASC" : String) ++ " LIMIT " = " ASC LIMIT " from by decide]]
      · simp [build_fetch_query, sanitize_identifier, ht, hi, hc,
          specFetchQueryText, h1, h2, string_append_assoc]
        rw [show (" ASC" : String) ++ (" LIMIT " ++ toString b) =
          " ASC LIMIT " ++ toString b from by
            rw [← string_append_assoc]
            rw [show (" ASC" : String) ++ " LIMIT " = " ASC LIMIT " from by decide]]
  · intro db_type table id_column text_column b m h
    rcases h with h | h | h
    · simp [build_fetch_query, sanitize_identifier, h, exceptOk]
    · by_cases ht : identRegexAccepts table
      · simp [build_fetch_query, sanitize_identifier, ht, h, exceptOk]
      · simp [build_fetch_query, sanitize_identifier, ht, exceptOk]
    · by_cases ht : identRegexAccepts table
      · by_cases hi : identRegexAccepts id_column
        · simp [build_fetch_query, sanitize_identifier, ht, hi, h, exceptOk]
        · simp [build_fetch_query, sanitize_identifier, ht, hi, exceptOk]
      · simp [build_fetch_query, sanitize_identifier, ht, exceptOk]
  · intro name
    constructor
    · intro hacc
      simp only [identRegexAccepts] at hacc
      by_cases h : name.data.getLast? = some '\n'
      · rw [if_pos h] at hacc
        simp only [Bool.and_eq_true, Bool.not_eq_true'] at hacc
        refine Or.inr ⟨h, ?_, hacc.2⟩
        intro hnil
        rw [hnil] at hacc
        simp at hacc
      · rw [if_neg h] at hacc
        simp only [Bool.and_eq_true, Bool.not_eq_true'] at hacc
        refine Or.inl ⟨?_, hacc.2⟩
        intro hnil
        rw [hnil] at hacc
        simp at hacc
    · intro hor
      simp only [identRegexAccepts]
      rcases hor with ⟨hne, hall⟩ | ⟨hlast, hne, hall⟩
      · by_cases h : name.data.getLast? = some '\n'
        · exfalso
          have hmem := List.mem_of_getLast?_eq_some h
          have := List.all_eq_true.mp hall '\n' hmem
          simp [allowedIdentChar] at this
        · rw [if_neg h]
          simp only [Bool.and_eq_true, Bool.not_eq_true']
          exact ⟨by simpa [List.isEmpty_eq_false] using hne, hall⟩
      · rw [if_pos hlast]
        simp only [Bool.and_eq_true, Bool.not_eq_true']
        exact ⟨by simpa [List.isEmpty_eq_false] using hne, hall⟩

/-- C8 witness: the amended query contract applied at concrete names, batch
size and marker, discharging its hypotheses there. -/
theorem build_fetch_query_witness :
    build_fetch_query "mysql" "tbl" "id" "txt" 10 5 =
      .ok (specFetchQueryText "mysql" "tbl" "id" "txt" 10, [5]) :=
  build_fetch_query_contract.1 "mysql" "tbl" "id" "txt" 10 5
    (by decide) (by decide) (by decide)

/-- Row of the local task_item table. -/
structure TaskItemRow where
  id_task_item : Nat
  id_task : Nat
  remote_id : Option Int
  text_original : String
  original_hash : String
  text_corrected : Option PyVal
  status : String
  similarity_score : Option Rat
  tokens_input : Option Int
  tokens_output : Option Int
  ai_model : Option String
  finish_reason : Option String
  fetched_at : Option Nat
  processed_at : Option Nat
deriving DecidableEq, Repr

/-- Length of the longest common subsequence of two character lists. -/
def lcsLen : List Char → List Char → Nat
  | [], _ => 0
  | _ :: _, [] => 0
  | a :: as, b :: bs =>
    if a = b then lcsLen as bs + 1
    else max (lcsLen (a :: as) bs) (lcsLen as (b :: bs))
termination_by l1 l2 => l1.length + l2.length
decreasing_by all_goals simp_arith [List.length]

/-- Rounds a rational to two decimal places.  Python rounds exact halves to
even; the claims never touch a tie, so plain rounding is used. -/
def round2 (q : Rat) : Rat := (round (q * 100) : Int) / 100

/-- Models calculate_similarity_score (src/lib/task_item.py lines 50-68).  The
rapidfuzz ratio is the normalized indel similarity: two hundred times the
longest-common-subsequence length over the combined length, on a 0-100 scale,
with the empty-against-empty case defined as 100; None inputs are treated as
the empty string.  No claim depends on the exact score of a changed row. -/
def calculate_similarity_score (original_text corrected_text : Option String) :
    Rat :=
  let a := (original_text.getD "").data
  let b := (corrected_text.getD "").data
  if a.length + b.length = 0 then 100
  else round2 ((200 * (lcsLen a b : Rat)) / ((a.length : Rat) + (b.length : Rat)))

/-- JSON object of one response element: an association list from key to
value.  A key bound to vNone models JSON null; an absent key models a missing
field. -/
abbrev RespItem := List (String × PyVal)

/-- Python item.get(k): the stored value when the key is present, else None. -/
def jget (item : RespItem) (k : String) : PyVal :=
  match item.find? (fun p => p.1 == k) with
  | some p => p.2
  | none => PyVal.vNone

/-- Python item.get(k, d): the stored value when the key is present (even when
that value is None), else the default d. -/
def jgetD (item : RespItem) (k : String) (d : PyVal) : PyVal :=
  match item.find? (fun p => p.1 == k) with
  | some p => p.2
  | none => d

/-- Value of the remote_id field of a response element
(src/lib/task_item.py line 349). -/
def respRemoteId (item : RespItem) : PyVal := jget item "remote_id"

/-- Fallback identifier of a response element: the id_task_item field if that
key is present, else the generic id field (src/lib/task_item.py line 350). -/
def respFallbackId (item : RespItem) : PyVal :=
  jgetD item "id_task_item" (jget item "id")

/-- Value of the text_corrected field of a response element (line 351). -/
def respTextCorrected (item : RespItem) : PyVal := jget item "text_corrected"

/-- Identifier column and value resolved for one response element
(src/lib/task_item.py lines 357-361). -/
def resolveIdent (item : RespItem) : String × PyVal :=
  let remote_id := respRemoteId item
  if remote_id = PyVal.vNone ∨ remote_id = PyVal.vStr "" then
    ("id_task_item", respFallbackId item)
  else ("remote_id", remote_id)

/-- SQL equality of the key column named by identifier_column against a bound
parameter.  A NULL column never matches; comparisons of the integer key
columns with non-integer parameters are not modelled (the pipeline binds
integers there, and MySQL implicit coercion is outside this development). -/
def sqlMatchIdent (column : String) (v : PyVal) (r : TaskItemRow) : Bool :=
  if column = "remote_id" then
    match r.remote_id, v with
    | some n, PyVal.vInt m => n == m
    | _, _ => false
  else
    match v with
    | PyVal.vInt m => ((r.id_task_item : Int) == m)
    | _ => false

/-- Python original_texts.get(key): None both when the key is absent and when
the stored value is None; the code treats the two alike. -/
def lookupOriginal (m : List (PyVal × Option String)) (k : PyVal) :
    Option String :=
  match m.find? (fun p => p.1 == k) with
  | some p => p.2
  | none => none

/-- Arguments of update_task_items_from_json that stay fixed across the
response loop, together with the per-item token shares computed before it
(src/lib/task_item.py lines 336-345). -/
structure ReconCtx where
  id_task : Nat
  expected_set : List PyVal
  original_texts : List (PyVal × Option String)
  tokens_input_per_item : Int
  tokens_output_per_item : Int
  ai_model_name : Option String
  finish_reason_value : Option String
  now : Nat

/-- Text a PyVal contributes when bound as the corrected text.  Non-string
non-empty values would crash the similarity call in the source; the response
schema mandates strings, so only the string rendering is modelled. -/
def pyValText : PyVal → String
  | PyVal.vStr s => s
  | PyVal.vInt n => toString n
  | PyVal.vNone => ""

/-- UPDATE executed for an empty corrected text (src/lib/task_item.py lines
394-410): copy the original text into the corrected text, set status unchanged
and similarity 100, and stamp tokens, model, finish reason and the processing
time, on every row matching the task and the resolved identifier. -/
def applyUnchanged (ctx : ReconCtx) (col : String) (v : PyVal)
    (r : TaskItemRow) : TaskItemRow :=
  if r.id_task = ctx.id_task ∧ sqlMatchIdent col v r then
    { r with text_corrected := some (PyVal.vStr r.text_original),
             status := "unchanged", similarity_score := some 100,
             processed_at := some ctx.now,
             tokens_input := some ctx.tokens_input_per_item,
             tokens_output := some ctx.tokens_output_per_item,
             ai_model := ctx.ai_model_name,
             finish_reason := ctx.finish_reason_value }
  else r

/-- UPDATE executed for a nonempty corrected text (src/lib/task_item.py lines
412-430): store the corrected text, set status changed and the computed
similarity, and stamp tokens, model, finish reason and the processing time. -/
def applyChanged (ctx : ReconCtx) (col : String) (v : PyVal) (corrected : PyVal)
    (score : Rat) (r : TaskItemRow) : TaskItemRow :=
  if r.id_task = ctx.id_task ∧ sqlMatchIdent col v r then
    { r with text_corrected := some corrected, status := "changed",
             similarity_score := some score,
             processed_at := some ctx.now,
             tokens_input := some ctx.tokens_input_per_item,
             tokens_output := some ctx.tokens_output_per_item,
             ai_model := ctx.ai_model_name,
             finish_reason := ctx.finish_reason_value }
  else r

/-- One iteration of the response loop of update_task_items_from_json
(src/lib/task_item.py lines 348-432): validate the element, resolve its
identifier, recover the original text, then execute the UPDATE.  Returns the
new table, the processed-identifier list and the updated-count increment, or
the ValueError message. -/
def processItem (ctx : ReconCtx) (table : List TaskItemRow)
    (processed : List PyVal) (item : RespItem) :
    Except String (List TaskItemRow × List PyVal × Nat) :=
  let remote_id := respRemoteId item
  let fallback_id := respFallbackId item
  let text_corrected := respTextCorrected item
  if remote_id = PyVal.vNone ∧ fallback_id = PyVal.vNone then
    .error "Element odpowiedzi nie zawiera pola remote_id/id."
  else if text_corrected = PyVal.vNone then
    .error "Element odpowiedzi nie zawiera pola text_corrected."
  else
    let cv := resolveIdent item
    let rendered := pyValRender cv.2
    if ctx.expected_set ≠ [] ∧ cv.2 ∉ ctx.expected_set then
      .error ("Remote_id " ++ rendered ++
        " nie znajduje się na liście oczekiwanych rekordów.")
    else if cv.2 ∈ processed then
      .error ("Remote_id " ++ rendered ++
        " zostało zwrócone wielokrotnie w odpowiedzi.")
    else
      let processed' := processed ++ [cv.2]
      let original_text :=
        match lookupOriginal ctx.original_texts cv.2 with
        | some t => some t
        | none =>
          let alternate_key :=
            if cv.1 = "remote_id" then fallback_id else remote_id
          match (if alternate_key ≠ PyVal.vNone ∧ alternate_key ≠ PyVal.vStr ""
                 then lookupOriginal ctx.original_texts alternate_key
                 else none) with
          | some t => some t
          | none =>
            (table.find? (fun r =>
              r.id_task == ctx.id_task && sqlMatchIdent cv.1 cv.2 r)).map
              (fun r => r.text_original)
      let rowcount := (table.filter (fun r =>
        r.id_task == ctx.id_task && sqlMatchIdent cv.1 cv.2 r)).length
      if text_corrected = PyVal.vStr "" then
        .ok (table.map (applyUnchanged ctx cv.1 cv.2), processed',
          if rowcount ≠ 0 then 1 else 0)
      else
        let score :=
          calculate_similarity_score original_text (some (pyValText text_corrected))
        .ok (table.map (applyChanged ctx cv.1 cv.2 text_corrected score),
          processed', if rowcount ≠ 0 then 1 else 0)

/-- Response loop of update_task_items_from_json.  On a raise the state of the
cursor — the table as mutated by the earlier iterations — is returned with the
error message, mirroring the partially executed transaction that the caller
then rolls back. -/
def runItems (ctx : ReconCtx) :
    List RespItem → List TaskItemRow → List PyVal → Nat →
    List TaskItemRow × Nat × Option String
  | [], table, _, updated => (table, updated, none)
  | item :: rest, table, processed, updated =>
    match processItem ctx table processed item with
    | .error msg => (table, updated, some msg)
    | .ok (table', processed', inc) =>
      runItems ctx rest table' processed' (updated + inc)

/-- Embeds update_task_items_from_json (src/lib/task_item.py lines 298-434):
returns the table as left by the executed statements, the updated count, and
the ValueError message when the loop raised. -/
def update_task_items_from_json (table : List TaskItemRow) (id_task : Nat)
    (response_items : List RespItem) (expected_remote_ids : List PyVal)
    (tokens_input_total tokens_output_total : Option Int)
    (original_texts : List (PyVal × Option String))
    (ai_model_name finish_reason_value : Option String) (now : Nat) :
    List TaskItemRow × Nat × Option String :=
  if response_items.isEmpty then (table, 0, none)
  else
    let item_count : Int := response_items.length
    let ctx : ReconCtx :=
      { id_task := id_task, expected_set := expected_remote_ids,
        original_texts := original_texts,
        tokens_input_per_item := Int.fdiv (tokens_input_total.getD 0) item_count,
        tokens_output_per_item := Int.fdiv (tokens_output_total.getD 0) item_count,
        ai_model_name := ai_model_name,
        finish_reason_value := finish_reason_value, now := now }
    runItems ctx response_items table [] 0

/-- CASE expression of append_task_error and append_task_description: start
the log at the message when it is NULL or empty, else concatenate the old log,
a newline and the message. -/
def appendLog (log : Option String) (message : String) : Option String :=
  match log with
  | none => some message
  | some l => if l = "" then some message else some (l ++ "\n" ++ message)

/-- Embeds append_task_error (src/lib/task_item.py lines 110-124). -/
def append_task_error (tasks : List TaskRow) (id_task : Nat)
    (message : String) : List TaskRow :=
  tasks.map (fun t =>
    if t.id_task = id_task then { t with error_log := appendLog t.error_log message }
    else t)

/-- Snapshot of the local store used by the AI runner: task rows and task-item
rows. -/
structure LocalState where
  tasks : List TaskRow
  items : List TaskItemRow
deriving DecidableEq, Repr

/-- Reconciliation transaction of the AI runner (src/ai.py lines 208-239),
with update_task_items_from_json as the reconciliation engine: on success the
updated rows are committed; on a validation error the transaction is rolled
back, so no task_item row changes, and the message is appended to the task's
error log in its own committed statement. -/
def aiApplyResponse (st : LocalState) (id_task : Nat)
    (response_items : List RespItem) (expected_remote_ids : List PyVal)
    (tokens_input_total tokens_output_total : Option Int)
    (original_texts : List (PyVal × Option String))
    (ai_model_name finish_reason_value : Option String) (now : Nat) :
    LocalState × Option String × Nat :=
  let res := update_task_items_from_json st.items id_task response_items
    expected_remote_ids tokens_input_total tokens_output_total original_texts
    ai_model_name finish_reason_value now
  match res.2.2 with
  | some msg =>
    ({ tasks := append_task_error st.tasks id_task msg, items := st.items },
      some msg, 0)
  | none => ({ tasks := st.tasks, items := res.1 }, none, res.2.1)

/-- Key fields that identify a task_item row to the reconciliation UPDATE
statements, together with the original text they copy. -/
def sameRowKeys (r s : TaskItemRow) : Prop :=
  r.id_task = s.id_task ∧ r.remote_id = s.remote_id ∧
  r.id_task_item = s.id_task_item ∧ r.text_original = s.text_original

/-- Row targeted by a response element: the row matches the task and the
element's resolved identifier, exactly the WHERE clause of the UPDATE. -/
def targetsRow (item : RespItem) (id_task : Nat) (r : TaskItemRow) : Prop :=
  r.id_task = id_task ∧
    sqlMatchIdent (resolveIdent item).1 (resolveIdent item).2 r = true

/-- Final state of a row that the empty-correction UPDATE promises. -/
def unchangedOutcome (r : TaskItemRow) : Prop :=
  r.status = "unchanged" ∧ r.similarity_score = some 100 ∧
  r.text_corrected = some (PyVal.vStr r.text_original)

theorem sameRowKeys_refl (r : TaskItemRow) : sameRowKeys r r :=
  ⟨rfl, rfl, rfl, rfl⟩

theorem sameRowKeys_trans {r s t : TaskItemRow} (h1 : sameRowKeys r s)
    (h2 : sameRowKeys s t) : sameRowKeys r t :=
  ⟨h1.1.trans h2.1, h1.2.1.trans h2.2.1, h1.2.2.1.trans h2.2.2.1,
   h1.2.2.2.trans h2.2.2.2⟩

theorem sqlMatchIdent_congr (col : String) (v : PyVal) {r s : TaskItemRow}
    (h : sameRowKeys r s) : sqlMatchIdent col v r = sqlMatchIdent col v s := by
  obtain ⟨_, h2, h3, _⟩ := h
  simp only [sqlMatchIdent, h2, h3]

theorem targetsRow_congr (item : RespItem) (id_task : Nat) {r s : TaskItemRow}
    (h : sameRowKeys r s) : targetsRow item id_task r ↔ targetsRow item id_task s := by
  unfold targetsRow
  rw [h.1, sqlMatchIdent_congr _ _ h]

theorem applyUnchanged_keys (ctx : ReconCtx) (col : String) (v : PyVal)
    (r : TaskItemRow) : sameRowKeys r (applyUnchanged ctx col v r) := by
  unfold applyUnchanged
  split
  · exact ⟨rfl, rfl, rfl, rfl⟩
  · exact sameRowKeys_refl r

theorem applyChanged_keys (ctx : ReconCtx) (col : String) (v : PyVal)
    (c : PyVal) (sc : Rat) (r : TaskItemRow) :
    sameRowKeys r (applyChanged ctx col v c sc r) := by
  unfold applyChanged
  split
  · exact ⟨rfl, rfl, rfl, rfl⟩
  · exact sameRowKeys_refl r

theorem applyUnchanged_matched_outcome (ctx : ReconCtx) (col : String)
    (v : PyVal) (r : TaskItemRow)
    (h : r.id_task = ctx.id_task ∧ sqlMatchIdent col v r = true) :
    unchangedOutcome (applyUnchanged ctx col v r) := by
  unfold applyUnchanged unchangedOutcome
  rw [if_pos h]
  exact ⟨rfl, rfl, rfl⟩

theorem applyUnchanged_unmatched (ctx : ReconCtx) (col : String) (v : PyVal)
    (r : TaskItemRow)
    (h : ¬(r.id_task = ctx.id_task ∧ sqlMatchIdent col v r = true)) :
    applyUnchanged ctx col v r = r := by
  unfold applyUnchanged
  rw [if_neg h]

theorem applyUnchanged_tokens (ctx : ReconCtx) (col : String) (v : PyVal)
    (r : TaskItemRow) :
    applyUnchanged ctx col v r = r ∨
    ((applyUnchanged ctx col v r).tokens_input = some ctx.tokens_input_per_item ∧
     (applyUnchanged ctx col v r).tokens_output = some ctx.tokens_output_per_item) := by
  unfold applyUnchanged
  split
  · exact Or.inr ⟨rfl, rfl⟩
  · exact Or.inl rfl

theorem applyChanged_tokens (ctx : ReconCtx) (col : String) (v : PyVal)
    (c : PyVal) (sc : Rat) (r : TaskItemRow) :
    applyChanged ctx col v c sc r = r ∨
    ((applyChanged ctx col v c sc r).tokens_input = some ctx.tokens_input_per_item ∧
     (applyChanged ctx col v c sc r).tokens_output = some ctx.tokens_output_per_item) := by
  unfold applyChanged
  split
  · exact Or.inr ⟨rfl, rfl⟩
  · exact Or.inl rfl

theorem processItem_cases (ctx : ReconCtx) (table : List TaskItemRow)
    (processed : List PyVal) (item : RespItem) :
    (∃ msg, processItem ctx table processed item = .error msg) ∨
    (processItem ctx table processed item =
        .ok (table.map (applyUnchanged ctx (resolveIdent item).1 (resolveIdent item).2),
          processed ++ [(resolveIdent item).2],
          if (table.filter (fun r =>
              r.id_task == ctx.id_task &&
                sqlMatchIdent (resolveIdent item).1 (resolveIdent item).2 r)).length ≠ 0
          then 1 else 0) ∧
      respTextCorrected item = PyVal.vStr "" ∧
      (resolveIdent item).2 ∉ processed) ∨
    (∃ score, processItem ctx table processed item =
        .ok (table.map (applyChanged ctx (resolveIdent item).1 (resolveIdent item).2
            (respTextCorrected item) score),
          processed ++ [(resolveIdent item).2],
          if (table.filter (fun r =>
              r.id_task == ctx.id_task &&
                sqlMatchIdent (resolveIdent item).1 (resolveIdent item).2 r)).length ≠ 0
          then 1 else 0) ∧
      respTextCorrected item ≠ PyVal.vStr "" ∧
      (resolveIdent item).2 ∉ processed) := by
  simp only [processItem]
  by_cases c1 : respRemoteId item = PyVal.vNone ∧ respFallbackId item = PyVal.vNone
  · rw [if_pos c1]
    exact Or.inl ⟨_, rfl⟩
  · rw [if_neg c1]
    by_cases c2 : respTextCorrected item = PyVal.vNone
    · rw [if_pos c2]
      exact Or.inl ⟨_, rfl⟩
    · rw [if_neg c2]
      by_cases c3 : ctx.expected_set ≠ [] ∧ (resolveIdent item).2 ∉ ctx.expected_set
      · rw [if_pos c3]
        exact Or.inl ⟨_, rfl⟩
      · rw [if_neg c3]
        by_cases c4 : (resolveIdent item).2 ∈ processed
        · rw [if_pos c4]
          exact Or.inl ⟨_, rfl⟩
        · rw [if_neg c4]
          by_cases c5 : respTextCorrected item = PyVal.vStr ""
          · rw [if_pos c5]
            exact Or.inr (Or.inl ⟨rfl, c5, c4⟩)
          · rw [if_neg c5]
            exact Or.inr (Or.inr ⟨_, rfl, c5, c4⟩)

theorem runItems_cons_err (ctx : ReconCtx) (item : RespItem)
    (rest : List RespItem) (table : List TaskItemRow) (processed : List PyVal)
    (updated : Nat) (msg : String)
    (hpi : processItem ctx table processed item = .error msg) :
    runItems ctx (item :: rest) table processed updated =
      (table, updated, some msg) := by
  simp only [runItems, hpi]

theorem runItems_cons_ok (ctx : ReconCtx) (item : RespItem)
    (rest : List RespItem) (table : List TaskItemRow) (processed : List PyVal)
    (updated : Nat) (t' : List TaskItemRow) (p' : List PyVal) (i' : Nat)
    (hpi : processItem ctx table processed item = .ok (t', p', i')) :
    runItems ctx (item :: rest) table processed updated =
      runItems ctx rest t' p' (updated + i') := by
  simp only [runItems, hpi]

theorem forall₂_mem_right {α β : Type} {R : α → β → Prop} :
    ∀ {l₁ : List α} {l₂ : List β}, List.Forall₂ R l₁ l₂ →
      ∀ {b}, b ∈ l₂ → ∃ a ∈ l₁, R a b := by
  intro l₁ l₂ h
  induction h with
  | nil => intro b hb; cases hb
  | cons hR hF ih =>
    intro b hb
    rcases List.mem_cons.mp hb with rfl | hb'
    · exact ⟨_, List.mem_cons_self _ _, hR⟩
    · obtain ⟨a, ha, hr⟩ := ih hb'
      exact ⟨a, List.mem_cons_of_mem _ ha, hr⟩

theorem runItems_tokens (ctx : ReconCtx) :
    ∀ (items : List RespItem) (table : List TaskItemRow)
      (processed : List PyVal) (updated : Nat),
      List.Forall₂ (fun r r' => r' = r ∨
        (r'.tokens_input = some ctx.tokens_input_per_item ∧
         r'.tokens_output = some ctx.tokens_output_per_item))
        table (runItems ctx items table processed updated).1 := by
  intro items
  induction items with
  | nil =>
    intro table processed updated
    exact List.forall₂_same.2 (fun x _ => Or.inl rfl)
  | cons item rest ih =>
    intro table processed updated
    rcases processItem_cases ctx table processed item with
      ⟨msg, he⟩ | ⟨hpi, _, _⟩ | ⟨score, hpi, _, _⟩
    · rw [runItems_cons_err ctx item rest table processed updated msg he]
      exact List.forall₂_same.2 (fun x _ => Or.inl rfl)
    · rw [runItems_cons_ok ctx item rest table processed updated _ _ _ hpi]
      have h1 := ih
        (table.map (applyUnchanged ctx (resolveIdent item).1 (resolveIdent item).2))
        (processed ++ [(resolveIdent item).2])
        (updated + if (table.filter (fun r => r.id_task == ctx.id_task &&
            sqlMatchIdent (resolveIdent item).1 (resolveIdent item).2 r)).length ≠ 0
          then 1 else 0)
      have h2 := List.forall₂_map_left_iff.mp h1
      refine List.Forall₂.imp ?_ h2
      intro r r' hr
      rcases hr with hr | hr
      · subst hr
        rcases applyUnchanged_tokens ctx (resolveIdent item).1
            (resolveIdent item).2 r with hg | hg
        · exact Or.inl hg
        · exact Or.inr hg
      · exact Or.inr hr
    · rw [runItems_cons_ok ctx item rest table processed updated _ _ _ hpi]
      have h1 := ih
        (table.map (applyChanged ctx (resolveIdent item).1 (resolveIdent item).2
          (respTextCorrected item) score))
        (processed ++ [(resolveIdent item).2])
        (updated + if (table.filter (fun r => r.id_task == ctx.id_task &&
            sqlMatchIdent (resolveIdent item).1 (resolveIdent item).2 r)).length ≠ 0
          then 1 else 0)
      have h2 := List.forall₂_map_left_iff.mp h1
      refine List.Forall₂.imp ?_ h2
      intro r r' hr
      rcases hr with hr | hr
      · subst hr
        rcases applyChanged_tokens ctx (resolveIdent item).1
            (resolveIdent item).2 (respTextCorrected item) score r with hg | hg
        · exact Or.inl hg
        · exact Or.inr hg
      · exact Or.inr hr

theorem runItems_empty_corrections (ctx : ReconCtx) :
    ∀ (items : List RespItem) (table : List TaskItemRow)
      (processed : List PyVal) (updated : Nat),
      (∀ it ∈ items, respTextCorrected it = PyVal.vStr "") →
      (runItems ctx items table processed updated).2.2 = none →
      List.Forall₂ (fun r r' =>
        sameRowKeys r r' ∧ (r' = r ∨ unchangedOutcome r') ∧
        (∀ it ∈ items, targetsRow it ctx.id_task r → unchangedOutcome r'))
        table (runItems ctx items table processed updated).1 := by
  intro items
  induction items with
  | nil =>
    intro table processed updated _ _
    refine List.forall₂_same.2 (fun x _ => ⟨sameRowKeys_refl x, Or.inl rfl, ?_⟩)
    intro it hit
    cases hit
  | cons item rest ih =>
    intro table processed updated hempty hok
    rcases processItem_cases ctx table processed item with
      ⟨msg, he⟩ | ⟨hpi, _, _⟩ | ⟨score, _, hne, _⟩
    · rw [runItems_cons_err ctx item rest table processed updated msg he] at hok
      cases hok
    · rw [runItems_cons_ok ctx item rest table processed updated _ _ _ hpi]
        at hok ⊢
      have h1 := ih _ _ _ (fun it hit => hempty it (List.mem_cons_of_mem _ hit)) hok
      have h2 := List.forall₂_map_left_iff.mp h1
      refine List.Forall₂.imp ?_ h2
      intro r r' hr
      obtain ⟨hkeys, hcase, htarg⟩ := hr
      have hkr : sameRowKeys r
          (applyUnchanged ctx (resolveIdent item).1 (resolveIdent item).2 r) :=
        applyUnchanged_keys ctx _ _ r
      refine ⟨sameRowKeys_trans hkr hkeys, ?_, ?_⟩
      · rcases hcase with hcase | hcase
        · by_cases hcond : r.id_task = ctx.id_task ∧
              sqlMatchIdent (resolveIdent item).1 (resolveIdent item).2 r = true
          · exact Or.inr (hcase.symm ▸
              applyUnchanged_matched_outcome ctx _ _ r hcond)
          · exact Or.inl
              (hcase.trans (applyUnchanged_unmatched ctx _ _ r hcond))
        · exact Or.inr hcase
      · intro it' hit' htar
        rcases List.mem_cons.mp hit' with rfl | hit''
        · have hcond : r.id_task = ctx.id_task ∧
              sqlMatchIdent (resolveIdent it').1 (resolveIdent it').2 r = true := htar
          have hout := applyUnchanged_matched_outcome ctx _ _ r hcond
          rcases hcase with hcase | hcase
          · exact hcase.symm ▸ hout
          · exact hcase
        · exact htarg it' hit'' ((targetsRow_congr it' ctx.id_task hkr).mp htar)
    · exact absurd (hempty item (List.mem_cons_self _ _)) hne

/-- C4: for every reconciliation response element whose corrected-text field
is the empty string, when the batch completes without a validation error every
task_item row targeted by such an element ends with status unchanged,
similarity score 100 and corrected text equal to its original text; in
particular a response covering the full expected-identifier set with all empty
corrections leaves every targeted item in exactly that state. -/
theorem reconciliation_empty_corrections
    (table : List TaskItemRow) (id_task : Nat) (items : List RespItem)
    (expected : List PyVal) (tokI tokO : Option Int)
    (origs : List (PyVal × Option String)) (model finish : Option String)
    (now : Nat)
    (hempty : ∀ it ∈ items, respTextCorrected it = PyVal.vStr "")
    (hok : (update_task_items_from_json table id_task items expected tokI tokO
        origs model finish now).2.2 = none) :
    ∀ r' ∈ (update_task_items_from_json table id_task items expected tokI tokO
        origs model finish now).1,
      (∃ it ∈ items, targetsRow it id_task r') →
      r'.status = "unchanged" ∧ r'.similarity_score = some 100 ∧
      r'.text_corrected = some (PyVal.vStr r'.text_original) := by
  intro r' hr' hex
  obtain ⟨it, hit, htar⟩ := hex
  by_cases hemp : items.isEmpty
  · rw [List.isEmpty_iff] at hemp
    subst hemp
    cases hit
  · have hemp2 : items.isEmpty = false := by
      rwa [Bool.not_eq_true] at hemp
    simp only [update_task_items_from_json, hemp2, Bool.false_eq_true,
      if_false] at hok hr'
    have hF := runItems_empty_corrections
      { id_task := id_task, expected_set := expected, original_texts := origs,
        tokens_input_per_item := Int.fdiv (tokI.getD 0) items.length,
        tokens_output_per_item := Int.fdiv (tokO.getD 0) items.length,
        ai_model_name := model, finish_reason_value := finish, now := now }
      items table [] 0 hempty hok
    obtain ⟨r, _, hrel⟩ := forall₂_mem_right hF hr'
    obtain ⟨hkeys, _, htargets⟩ := hrel
    exact htargets it hit ((targetsRow_congr it id_task hkeys).mpr htar)

/-- Task-item row used by the concrete witnesses. -/
def c4Row : TaskItemRow :=
  { id_task_item := 1, id_task := 3, remote_id := some 5,
    text_original := "ok", original_hash := "h", text_corrected := none,
    status := "pending", similarity_score := none, tokens_input := none,
    tokens_output := none, ai_model := none, finish_reason := none,
    fetched_at := some 0, processed_at := none }

/-- Second task-item row used by the concrete witnesses. -/
def c7Row2 : TaskItemRow :=
  { c4Row with id_task_item := 2, remote_id := some 6, text_original := "fine" }

/-- Response element with an empty correction for remote id 5. -/
def c4Resp : RespItem :=
  [("remote_id", PyVal.vInt 5), ("text_corrected", PyVal.vStr "")]

/-- Response element with an empty correction for remote id 6. -/
def c7Resp2 : RespItem :=
  [("remote_id", PyVal.vInt 6), ("text_corrected", PyVal.vStr "")]

/-- Row c4Row after the empty-correction batch has been applied to it. -/
def c4OutRow : TaskItemRow :=
  { c4Row with
    text_corrected := some (PyVal.vStr "ok"), status := "unchanged",
    similarity_score := some 100, tokens_input := some 7,
    tokens_output := some 9, ai_model := some "m",
    finish_reason := some "stop", processed_at := some 11 }

/-- C4 witness: the empty-correction theorem applied to a concrete one-element
batch, discharging its hypotheses there. -/
theorem reconciliation_empty_corrections_witness :
    c4OutRow ∈ (update_task_items_from_json [c4Row] 3 [c4Resp] [PyVal.vInt 5]
        (some 7) (some 9) [(PyVal.vInt 5, some "ok")] (some "m") (some "stop")
        11).1 ∧
    c4OutRow.status = "unchanged" ∧ c4OutRow.similarity_score = some 100 ∧
    c4OutRow.text_corrected = some (PyVal.vStr c4OutRow.text_original) :=
  ⟨by decide,
   reconciliation_empty_corrections [c4Row] 3 [c4Resp] [PyVal.vInt 5] (some 7)
     (some 9) [(PyVal.vInt 5, some "ok")] (some "m") (some "stop") 11
     (by decide) (by decide) c4OutRow (by decide)
     ⟨c4Resp, by decide, by unfold targetsRow; exact ⟨by decide, by decide⟩⟩⟩

/-- C7: for every reconciliation batch of n response elements (n positive)
with batch token totals I and O, every task_item row the batch rewrites is
stamped with tokens_input equal to the floor of I over n and tokens_output
equal to the floor of O over n (rows the batch does not rewrite are unchanged),
and the division remainders I mod n and O mod n — which satisfy
n times the floor plus the remainder equals the total — are attributed to no
item. -/
theorem reconciliation_token_split
    (table : List TaskItemRow) (id_task : Nat) (items : List RespItem)
    (expected : List PyVal) (tokI tokO : Option Int)
    (origs : List (PyVal × Option String)) (model finish : Option String)
    (now : Nat) (hne : items ≠ []) :
    List.Forall₂ (fun r r' => r' = r ∨
      (r'.tokens_input = some (Int.fdiv (tokI.getD 0) items.length) ∧
       r'.tokens_output = some (Int.fdiv (tokO.getD 0) items.length)))
      table
      (update_task_items_from_json table id_task items expected tokI tokO origs
        model finish now).1 ∧
    (items.length : Int) * Int.fdiv (tokI.getD 0) items.length +
        Int.fmod (tokI.getD 0) items.length = tokI.getD 0 ∧
    (items.length : Int) * Int.fdiv (tokO.getD 0) items.length +
        Int.fmod (tokO.getD 0) items.length = tokO.getD 0 := by
  have hemp2 : items.isEmpty = false := by
    cases items with
    | nil => exact absurd rfl hne
    | cons a l => rfl
  refine ⟨?_, Int.fdiv_add_fmod _ _, Int.fdiv_add_fmod _ _⟩
  simp only [update_task_items_from_json, hemp2, Bool.false_eq_true, if_false]
  exact runItems_tokens
    { id_task := id_task, expected_set := expected, original_texts := origs,
      tokens_input_per_item := Int.fdiv (tokI.getD 0) items.length,
      tokens_output_per_item := Int.fdiv (tokO.getD 0) items.length,
      ai_model_name := model, finish_reason_value := finish, now := now }
    items table [] 0

/-- C7 witness: the token-split theorem applied to a concrete two-element
batch, discharging its hypothesis there. -/
theorem reconciliation_token_split_witness :
    List.Forall₂ (fun r r' => r' = r ∨
      (r'.tokens_input =
          some (Int.fdiv ((some 7 : Option Int).getD 0) [c4Resp, c7Resp2].length) ∧
       r'.tokens_output =
          some (Int.fdiv ((some 9 : Option Int).getD 0) [c4Resp, c7Resp2].length)))
      [c4Row, c7Row2]
      (update_task_items_from_json [c4Row, c7Row2] 3 [c4Resp, c7Resp2]
        [PyVal.vInt 5, PyVal.vInt 6] (some 7) (some 9)
        [(PyVal.vInt 5, some "ok"), (PyVal.vInt 6, some "fine")] (some "m")
        (some "stop") 11).1 ∧
    (([c4Resp, c7Resp2].length : Int)) *
        Int.fdiv ((some 7 : Option Int).getD 0) [c4Resp, c7Resp2].length +
        Int.fmod ((some 7 : Option Int).getD 0) [c4Resp, c7Resp2].length =
      (some 7 : Option Int).getD 0 ∧
    (([c4Resp, c7Resp2].length : Int)) *
        Int.fdiv ((some 9 : Option Int).getD 0) [c4Resp, c7Resp2].length +
        Int.fmod ((some 9 : Option Int).getD 0) [c4Resp, c7Resp2].length =
      (some 9 : Option Int).getD 0 :=
  reconciliation_token_split [c4Row, c7Row2] 3 [c4Resp, c7Resp2]
    [PyVal.vInt 5, PyVal.vInt 6] (some 7) (some 9)
    [(PyVal.vInt 5, some "ok"), (PyVal.vInt 6, some "fine")] (some "m")
    (some "stop") 11 (by decide)

/-- Response element that passes the per-element validations: it carries an
identifier, carries a corrected-text value, and its resolved identifier is in
the expected set (or no expected set was supplied). -/
def wellFormedResp (expected : List PyVal) (item : RespItem) : Prop :=
  ¬(respRemoteId item = PyVal.vNone ∧ respFallbackId item = PyVal.vNone) ∧
  respTextCorrected item ≠ PyVal.vNone ∧
  (expected = [] ∨ (resolveIdent item).2 ∈ expected)

instance (expected : List PyVal) (item : RespItem) :
    Decidable (wellFormedResp expected item) := by
  unfold wellFormedResp
  infer_instance

theorem processItem_invalid (ctx : ReconCtx) (table : List TaskItemRow)
    (processed : List PyVal) (item : RespItem)
    (h : (respRemoteId item = PyVal.vNone ∧ respFallbackId item = PyVal.vNone) ∨
      respTextCorrected item = PyVal.vNone) :
    ∃ msg, processItem ctx table processed item = .error msg := by
  simp only [processItem]
  by_cases c1 : respRemoteId item = PyVal.vNone ∧ respFallbackId item = PyVal.vNone
  · rw [if_pos c1]
    exact ⟨_, rfl⟩
  · rw [if_neg c1]
    have c2 : respTextCorrected item = PyVal.vNone := h.resolve_left c1
    rw [if_pos c2]
    exact ⟨_, rfl⟩

theorem processItem_wf_dup (ctx : ReconCtx) (table : List TaskItemRow)
    (processed : List PyVal) (item : RespItem)
    (hwf : wellFormedResp ctx.expected_set item)
    (hdup : (resolveIdent item).2 ∈ processed) :
    ∃ msg, processItem ctx table processed item = .error msg := by
  obtain ⟨h1, h2, h3⟩ := hwf
  simp only [processItem]
  rw [if_neg h1, if_neg h2]
  have hc3 : ¬(ctx.expected_set ≠ [] ∧ (resolveIdent item).2 ∉ ctx.expected_set) := by
    rcases h3 with h | h
    · intro hx
      exact hx.1 h
    · intro hx
      exact hx.2 h
  rw [if_neg hc3, if_pos hdup]
  exact ⟨_, rfl⟩

theorem runItems_err_of_invalid (ctx : ReconCtx) :
    ∀ (items : List RespItem) (table : List TaskItemRow)
      (processed : List PyVal) (updated : Nat),
      (∃ it ∈ items,
        (respRemoteId it = PyVal.vNone ∧ respFallbackId it = PyVal.vNone) ∨
        respTextCorrected it = PyVal.vNone) →
      (runItems ctx items table processed updated).2.2 ≠ none := by
  intro items
  induction items with
  | nil =>
    intro table processed updated h
    obtain ⟨it, hit, _⟩ := h
    cases hit
  | cons item rest ih =>
    intro table processed updated h
    rcases processItem_cases ctx table processed item with
      ⟨msg, he⟩ | ⟨hpi, _, _⟩ | ⟨score, hpi, _, _⟩
    · rw [runItems_cons_err ctx item rest table processed updated msg he]
      simp
    · obtain ⟨it, hit, hbad⟩ := h
      rcases List.mem_cons.mp hit with rfl | hit'
      · obtain ⟨msg, he⟩ := processItem_invalid ctx table processed it hbad
        rw [he] at hpi
        cases hpi
      · rw [runItems_cons_ok ctx item rest table processed updated _ _ _ hpi]
        exact ih _ _ _ ⟨it, hit', hbad⟩
    · obtain ⟨it, hit, hbad⟩ := h
      rcases List.mem_cons.mp hit with rfl | hit'
      · obtain ⟨msg, he⟩ := processItem_invalid ctx table processed it hbad
        rw [he] at hpi
        cases hpi
      · rw [runItems_cons_ok ctx item rest table processed updated _ _ _ hpi]
        exact ih _ _ _ ⟨it, hit', hbad⟩

theorem runItems_err_of_processed_dup (ctx : ReconCtx) :
    ∀ (items : List RespItem) (table : List TaskItemRow)
      (processed : List PyVal) (updated : Nat),
      (∃ it ∈ items, wellFormedResp ctx.expected_set it ∧
        (resolveIdent it).2 ∈ processed) →
      (runItems ctx items table processed updated).2.2 ≠ none := by
  intro items
  induction items with
  | nil =>
    intro table processed updated h
    obtain ⟨it, hit, _⟩ := h
    cases hit
  | cons item rest ih =>
    intro table processed updated h
    rcases processItem_cases ctx table processed item with
      ⟨msg, he⟩ | ⟨hpi, _, _⟩ | ⟨score, hpi, _, _⟩
    · rw [runItems_cons_err ctx item rest table processed updated msg he]
      simp
    · obtain ⟨it, hit, hwf, hdup⟩ := h
      rcases List.mem_cons.mp hit with rfl | hit'
      · obtain ⟨msg, he⟩ := processItem_wf_dup ctx table processed it hwf hdup
        rw [he] at hpi
        cases hpi
      · rw [runItems_cons_ok ctx item rest table processed updated _ _ _ hpi]
        exact ih _ _ _ ⟨it, hit', hwf, List.mem_append_left _ hdup⟩
    · obtain ⟨it, hit, hwf, hdup⟩ := h
      rcases List.mem_cons.mp hit with rfl | hit'
      · obtain ⟨msg, he⟩ := processItem_wf_dup ctx table processed it hwf hdup
        rw [he] at hpi
        cases hpi
      · rw [runItems_cons_ok ctx item rest table processed updated _ _ _ hpi]
        exact ih _ _ _ ⟨it, hit', hwf, List.mem_append_left _ hdup⟩

theorem runItems_err_of_dup (ctx : ReconCtx) :
    ∀ (items : List RespItem) (table : List TaskItemRow)
      (processed : List PyVal) (updated : Nat),
      (∀ it ∈ items, wellFormedResp ctx.expected_set it) →
      ¬ List.Pairwise (fun a b => (resolveIdent a).2 ≠ (resolveIdent b).2) items →
      (runItems ctx items table processed updated).2.2 ≠ none := by
  intro items
  induction items with
  | nil =>
    intro table processed updated _ hnp
    exact absurd List.Pairwise.nil hnp
  | cons item rest ih =>
    intro table processed updated hwf hnp
    rcases processItem_cases ctx table processed item with
      ⟨msg, he⟩ | ⟨hpi, _, _⟩ | ⟨score, hpi, _, _⟩
    · rw [runItems_cons_err ctx item rest table processed updated msg he]
      simp
    · rw [runItems_cons_ok ctx item rest table processed updated _ _ _ hpi]
      rw [List.pairwise_cons] at hnp
      push_neg at hnp
      rcases Classical.em (∃ b ∈ rest, (resolveIdent item).2 = (resolveIdent b).2)
        with ⟨b, hb, heq⟩ | hnone
      · refine runItems_err_of_processed_dup ctx rest _ _ _
          ⟨b, hb, hwf b (List.mem_cons_of_mem _ hb), ?_⟩
        rw [← heq]
        exact List.mem_append_right _ (List.mem_singleton.mpr rfl)
      · refine ih _ _ _ (fun it hit => hwf it (List.mem_cons_of_mem _ hit)) ?_
        intro hp
        refine hnp ?_ hp
        intro b hb
        exact fun heq => hnone ⟨b, hb, heq⟩
    · rw [runItems_cons_ok ctx item rest table processed updated _ _ _ hpi]
      rw [List.pairwise_cons] at hnp
      push_neg at hnp
      rcases Classical.em (∃ b ∈ rest, (resolveIdent item).2 = (resolveIdent b).2)
        with ⟨b, hb, heq⟩ | hnone
      · refine runItems_err_of_processed_dup ctx rest _ _ _
          ⟨b, hb, hwf b (List.mem_cons_of_mem _ hb), ?_⟩
        rw [← heq]
        exact List.mem_append_right _ (List.mem_singleton.mpr rfl)
      · refine ih _ _ _ (fun it hit => hwf it (List.mem_cons_of_mem _ hit)) ?_
        intro hp
        refine hnp ?_ hp
        intro b hb
        exact fun heq => hnone ⟨b, hb, heq⟩

/-- C5: a reconciliation response that resolves the same identifier twice, or
contains an element lacking both identifiers, or an element whose
corrected-text field is absent (None), makes the whole batch fail with a
validation error: no task_item row is updated — the batch transaction is
rolled back — and the error message is appended to the task's error log.  An
empty corrected-text string is a valid value and raises nothing. -/
theorem reconciliation_validation_rollback
    (st : LocalState) (id_task : Nat) (items : List RespItem)
    (expected : List PyVal) (tokI tokO : Option Int)
    (origs : List (PyVal × Option String)) (model finish : Option String)
    (now : Nat)
    (h : (∃ it ∈ items,
            (respRemoteId it = PyVal.vNone ∧ respFallbackId it = PyVal.vNone) ∨
            respTextCorrected it = PyVal.vNone) ∨
         ((∀ it ∈ items, wellFormedResp expected it) ∧
          ¬ List.Pairwise (fun a b => (resolveIdent a).2 ≠ (resolveIdent b).2)
            items)) :
    ∃ msg, aiApplyResponse st id_task items expected tokI tokO origs model
        finish now =
      ({ tasks := append_task_error st.tasks id_task msg, items := st.items },
        some msg, 0) := by
  have hemp2 : items.isEmpty = false := by
    rcases h with ⟨it, hit, _⟩ | ⟨_, hnp⟩
    · cases items with
      | nil => cases hit
      | cons a l => rfl
    · cases items with
      | nil => exact absurd List.Pairwise.nil hnp
      | cons a l => rfl
  have herr : (update_task_items_from_json st.items id_task items expected tokI
      tokO origs model finish now).2.2 ≠ none := by
    simp only [update_task_items_from_json, hemp2, Bool.false_eq_true, if_false]
    rcases h with hbad | ⟨hwf, hdup⟩
    · exact runItems_err_of_invalid _ items st.items [] 0 hbad
    · exact runItems_err_of_dup _ items st.items [] 0 hwf hdup
  obtain ⟨msg, hmsg⟩ : ∃ msg, (update_task_items_from_json st.items id_task
      items expected tokI tokO origs model finish now).2.2 = some msg := by
    cases hx : (update_task_items_from_json st.items id_task items expected
        tokI tokO origs model finish now).2.2 with
    | none => exact absurd hx herr
    | some m => exact ⟨m, rfl⟩
  refine ⟨msg, ?_⟩
  simp only [aiApplyResponse, hmsg]

/-- Response element repeating remote id 5 with an empty correction. -/
def c5RespDup : RespItem :=
  [("remote_id", PyVal.vInt 5), ("text_corrected", PyVal.vStr "")]

/-- Task row owning the witness items. -/
def c5Task : TaskRow :=
  { id_task := 3, status := "ai", sync_stage := "done",
    hash_method := some "sha256", marker_id := 5, marker_max_id := 5,
    records_total := 1, records_fetched := 1, records_updated := 0,
    records_processed := 0, description := none, error_log := none }

/-- C5 witness: the validation-rollback theorem applied to a concrete batch
that returns remote id 5 twice, discharging its hypothesis there. -/
theorem reconciliation_validation_rollback_witness :
    ∃ msg, aiApplyResponse { tasks := [c5Task], items := [c4Row] } 3
        [c4Resp, c5RespDup] [PyVal.vInt 5] (some 7) (some 9)
        [(PyVal.vInt 5, some "ok")] (some "m") (some "stop") 11 =
      ({ tasks := append_task_error [c5Task] 3 msg, items := [c4Row] },
        some msg, 0) :=
  reconciliation_validation_rollback { tasks := [c5Task], items := [c4Row] } 3
    [c4Resp, c5RespDup] [PyVal.vInt 5] (some 7) (some 9)
    [(PyVal.vInt 5, some "ok")] (some "m") (some "stop") 11
    (Or.inr ⟨by decide, by decide⟩)

/-- Row of the external source table under the aliases the fetch query gives
its two columns. -/
structure SourceRow where
  remote_id : Int
  text_value : Option String
deriving DecidableEq, Repr

/-- Execution of the paginated select built by build_fetch_query over a source
table sorted ascending by the id column: the rows with id strictly greater
than the marker, in order, limited to the batch size.  Rows with a NULL id are
never returned because the SQL predicate id > marker is NULL for them, so ids
are total here and the None-guards of the Python loops are dead. -/
def runFetchQuery (source : List SourceRow) (start_id : Int)
    (batch_size : Nat) : List SourceRow :=
  (source.filter (fun r => start_id < r.remote_id)).take batch_size

/-- Modelled digest.  The hashlib algorithms are opaque externals and no claim
depends on a digest value, so an executable stand-in tags the text with the
method name. -/
def calculate_hash (text : String) (method : String) : String :=
  method ++ ":" ++ text

/-- Transaction committed by one iteration of the fetch loop
(src/lib/task_item.py lines 786-812): the upserted value tuples
(id_task, remote_id, text, hash), the records_fetched increment, and the
marker_id write, all between one start_transaction and its commit. -/
structure BatchCommit where
  upserted : List (Nat × Int × String × String)
  fetchedInc : Nat
  newMarker : Int
deriving DecidableEq, Repr

/-- Fetch loop of fetch_remote_batch (src/lib/task_item.py lines 750-817) as
the list of transactions it commits.  Fuel bounds the iteration count; the
claims proved about the trace hold for every fuel value.  As in the source, a
NULL text becomes the empty string, each row is hashed, the batch's last row
id becomes the new marker, and the loop stops after a short or empty batch. -/
def fetchLoop (id_task : Nat) (hash_method : String) (source : List SourceRow)
    (batch_size : Nat) (marker_max_id : Int) :
    Nat → Int → List BatchCommit
  | 0, _ => []
  | fuel + 1, current_marker =>
    if current_marker < marker_max_id then
      let row_dicts := runFetchQuery source current_marker batch_size
      match row_dicts.getLast? with
      | none => []
      | some lastRow =>
        let values := row_dicts.map (fun r =>
          (id_task, r.remote_id, r.text_value.getD "",
            calculate_hash (r.text_value.getD "") hash_method))
        let commit : BatchCommit :=
          { upserted := values, fetchedInc := values.length,
            newMarker := lastRow.remote_id }
        if row_dicts.length < batch_size then [commit]
        else commit ::
          fetchLoop id_task hash_method source batch_size marker_max_id fuel
            lastRow.remote_id
    else []

/-- Source ids written by one committed batch. -/
def upsertedIds (c : BatchCommit) : List Int :=
  c.upserted.map (fun v => v.2.1)

/-- Maximum of a list of integers with a starting value. -/
def intMaxOf (l : List Int) (d : Int) : Int := l.foldl max d

/-- Well-formedness of a commit trace starting at marker m: every commit
groups a nonempty upsert with the matching records_fetched increment, writes
as its marker the greatest id it upserted, upserts only ids above the previous
marker, and the rest of the trace is well formed from that marker. -/
def goodTrace (m : Int) : List BatchCommit → Prop
  | [] => True
  | c :: cs =>
      c.fetchedInc = c.upserted.length ∧ c.upserted ≠ [] ∧
      (∀ x ∈ upsertedIds c, m < x) ∧ (∀ x ∈ upsertedIds c, x ≤ c.newMarker) ∧
      c.newMarker ∈ upsertedIds c ∧ goodTrace c.newMarker cs

theorem foldl_max_const {l : List Int} {e : Int} (h : ∀ x ∈ l, x ≤ e) :
    l.foldl max e = e := by
  induction l with
  | nil => rfl
  | cons x xs ih =>
    have hx : max e x = e := max_eq_left (h x (List.mem_cons_self _ _))
    simp only [List.foldl_cons, hx]
    exact ih (fun y hy => h y (List.mem_cons_of_mem _ hy))

theorem intMaxOf_eq : ∀ {l : List Int} {d M : Int}, (∀ x ∈ l, x ≤ M) →
    M ∈ l → d ≤ M → intMaxOf l d = M := by
  intro l
  induction l with
  | nil => intro d M _ h2 _; cases h2
  | cons x xs ih =>
    intro d M h1 h2 h3
    by_cases hx : M ∈ xs
    · have : intMaxOf xs (max d x) = M :=
        ih (fun y hy => h1 y (List.mem_cons_of_mem _ hy)) hx
          (max_le h3 (h1 x (List.mem_cons_self _ _)))
      simpa [intMaxOf, List.foldl_cons] using this
    · have hMx : M = x := by
        rcases List.mem_cons.mp h2 with h | h
        · exact h
        · exact absurd h hx
      subst hMx
      have hmax : max d M = M := max_eq_right h3
      simp only [intMaxOf, List.foldl_cons, hmax]
      exact foldl_max_const (fun y hy => h1 y (List.mem_cons_of_mem _ hy))

theorem pairwise_lt_getLast :
    ∀ {l : List SourceRow},
      List.Pairwise (fun a b => a.remote_id < b.remote_id) l →
      ∀ {last}, l.getLast? = some last → ∀ r ∈ l, r.remote_id ≤ last.remote_id := by
  intro l
  induction l with
  | nil => intro _ last h; cases h
  | cons x xs ih =>
    intro hp last hl r hr
    cases xs with
    | nil =>
      simp only [List.getLast?_singleton, Option.some.injEq] at hl
      subst hl
      rcases List.mem_cons.mp hr with rfl | h
      · exact le_refl _
      · cases h
    | cons y ys =>
      rw [List.getLast?_cons_cons] at hl
      have hp' := (List.pairwise_cons.mp hp).2
      have hxall := (List.pairwise_cons.mp hp).1
      rcases List.mem_cons.mp hr with rfl | h
      · have hlast_mem := List.mem_of_getLast?_eq_some hl
        exact le_of_lt (hxall last hlast_mem)
      · exact ih hp' hl r h

theorem runFetchQuery_gt (source : List SourceRow) (m : Int) (b : Nat) :
    ∀ r ∈ runFetchQuery source m b, m < r.remote_id := by
  intro r hr
  have hmem := List.mem_of_mem_take hr
  exact of_decide_eq_true (List.mem_filter.mp hmem).2

theorem runFetchQuery_pairwise (source : List SourceRow) (m : Int) (b : Nat)
    (hsorted : List.Pairwise (fun a b => a.remote_id < b.remote_id) source) :
    List.Pairwise (fun a b => a.remote_id < b.remote_id)
      (runFetchQuery source m b) :=
  List.Pairwise.sublist (List.take_sublist _ _) (List.Pairwise.filter _ hsorted)

theorem fetchLoop_good (id_task : Nat) (hash_method : String)
    (source : List SourceRow) (batch_size : Nat) (marker_max_id : Int)
    (hsorted : List.Pairwise (fun a b => a.remote_id < b.remote_id) source) :
    ∀ (fuel : Nat) (m : Int),
      goodTrace m (fetchLoop id_task hash_method source batch_size
        marker_max_id fuel m) := by
  intro fuel
  induction fuel with
  | zero =>
    intro m
    simp only [fetchLoop]
    trivial
  | succ fuel ih =>
    intro m
    by_cases hlt : m < marker_max_id
    · rcases hlast : (runFetchQuery source m batch_size).getLast? with _ | lastRow
      · simp only [fetchLoop, if_pos hlt, hlast]
        trivial
      · have hmemlast := List.mem_of_getLast?_eq_some hlast
        have hgt := runFetchQuery_gt source m batch_size
        have hle := pairwise_lt_getLast
          (runFetchQuery_pairwise source m batch_size hsorted) hlast
        have hids : upsertedIds
            { upserted := (runFetchQuery source m batch_size).map (fun r =>
                (id_task, r.remote_id, r.text_value.getD "",
                  calculate_hash (r.text_value.getD "") hash_method)),
              fetchedInc := ((runFetchQuery source m batch_size).map (fun r =>
                (id_task, r.remote_id, r.text_value.getD "",
                  calculate_hash (r.text_value.getD "") hash_method))).length,
              newMarker := lastRow.remote_id } =
            (runFetchQuery source m batch_size).map (fun r => r.remote_id) := by
          simp [upsertedIds, List.map_map, Function.comp]
        have hne : (runFetchQuery source m batch_size).map (fun r =>
            (id_task, r.remote_id, r.text_value.getD "",
              calculate_hash (r.text_value.getD "") hash_method)) ≠ [] := by
          intro hnil
          rw [List.map_eq_nil_iff] at hnil
          rw [hnil] at hlast
          cases hlast
        simp only [fetchLoop, if_pos hlt, hlast]
        by_cases hlen : (runFetchQuery source m batch_size).length < batch_size
        · rw [if_pos hlen]
          refine ⟨rfl, hne, ?_, ?_, ?_, trivial⟩
          · rw [hids]
            intro x hx
            obtain ⟨r, hr, rfl⟩ := List.mem_map.mp hx
            exact hgt r hr
          · rw [hids]
            intro x hx
            obtain ⟨r, hr, rfl⟩ := List.mem_map.mp hx
            exact hle r hr
          · rw [hids]
            exact List.mem_map.mpr ⟨lastRow, hmemlast, rfl⟩
        · rw [if_neg hlen]
          refine ⟨rfl, hne, ?_, ?_, ?_, ih lastRow.remote_id⟩
          · rw [hids]
            intro x hx
            obtain ⟨r, hr, rfl⟩ := List.mem_map.mp hx
            exact hgt r hr
          · rw [hids]
            intro x hx
            obtain ⟨r, hr, rfl⟩ := List.mem_map.mp hx
            exact hle r hr
          · rw [hids]
            exact List.mem_map.mpr ⟨lastRow, hmemlast, rfl⟩
    · simp only [fetchLoop, if_neg hlt]
      trivial

theorem goodTrace_commits : ∀ (cs : List BatchCommit) (m : Int),
    goodTrace m cs → ∀ c ∈ cs, c.fetchedInc = c.upserted.length ∧
      c.upserted ≠ [] := by
  intro cs
  induction cs with
  | nil => intro m _ c hc; cases hc
  | cons c0 cs ih =>
    intro m hg c hc
    obtain ⟨h1, h2, _, _, _, hrest⟩ := hg
    rcases List.mem_cons.mp hc with rfl | hc'
    · exact ⟨h1, h2⟩
    · exact ih _ hrest c hc'

theorem goodTrace_marker_lb : ∀ (cs : List BatchCommit) (m : Int),
    goodTrace m cs → ∀ c ∈ cs, m < c.newMarker := by
  intro cs
  induction cs with
  | nil => intro m _ c hc; cases hc
  | cons c0 cs ih =>
    intro m hg c hc
    obtain ⟨_, _, hgt, _, hmem, hrest⟩ := hg
    have h0 : m < c0.newMarker := hgt _ hmem
    rcases List.mem_cons.mp hc with rfl | hc'
    · exact h0
    · exact lt_trans h0 (ih _ hrest c hc')

theorem goodTrace_markers_mono : ∀ (cs : List BatchCommit) (m : Int),
    goodTrace m cs →
    ∀ i j (hi : i < cs.length) (hj : j < cs.length), i ≤ j →
      (cs.get ⟨i, hi⟩).newMarker ≤ (cs.get ⟨j, hj⟩).newMarker := by
  intro cs
  induction cs with
  | nil => intro m _ i j hi _ _; cases hi
  | cons c0 cs ih =>
    intro m hg i j hi hj hij
    obtain ⟨_, _, _, _, _, hrest⟩ := hg
    cases i with
    | zero =>
      cases j with
      | zero => exact le_refl _
      | succ j' =>
        have hmem : cs.get ⟨j', Nat.lt_of_succ_lt_succ hj⟩ ∈ cs :=
          List.get_mem _ _ _
        exact le_of_lt (goodTrace_marker_lb cs c0.newMarker hrest _ hmem)
    | succ i' =>
      cases j with
      | zero => cases hij
      | succ j' =>
        exact ih _ hrest i' j' (Nat.lt_of_succ_lt_succ hi)
          (Nat.lt_of_succ_lt_succ hj) (Nat.le_of_succ_le_succ hij)

theorem goodTrace_marker_max : ∀ (cs : List BatchCommit) (m : Int),
    goodTrace m cs →
    ∀ j (hj : j < cs.length),
      (cs.get ⟨j, hj⟩).newMarker =
        intMaxOf (((cs.take (j + 1)).map upsertedIds).flatten) m := by
  intro cs
  induction cs with
  | nil => intro m _ j hj; cases hj
  | cons c0 cs ih =>
    intro m hg j hj
    obtain ⟨_, _, hgt, hle, hmem, hrest⟩ := hg
    have hmax0 : intMaxOf (upsertedIds c0) m = c0.newMarker :=
      intMaxOf_eq hle hmem (le_of_lt (hgt _ hmem))
    cases j with
    | zero =>
      simp only [List.take_succ_cons, List.take_zero, List.map_cons,
        List.map_nil, List.flatten_cons, List.flatten_nil, List.append_nil,
        List.get_cons_zero]
      exact hmax0.symm
    | succ j' =>
      have hj' : j' < cs.length := Nat.lt_of_succ_lt_succ hj
      have hmax0' : List.foldl max m (upsertedIds c0) = c0.newMarker := hmax0
      simp only [List.get_cons_succ, List.take_succ_cons, List.map_cons,
        List.flatten_cons]
      rw [intMaxOf, List.foldl_append, hmax0']
      exact ih c0.newMarker hrest j' hj' 

/-- C3: over any run of the fetch loop from marker m0 (any fuel, source sorted
ascending by id, positive batch size), every committed batch carries its
upsert, the records_fetched increment equal to the number of upserted rows,
and the marker write in one transaction; the committed marker values are
non-decreasing along the run; and after each committed batch the marker equals
the highest source id committed so far. -/
theorem fetch_marker_monotonic (id_task : Nat) (hash_method : String)
    (source : List SourceRow) (batch_size : Nat) (marker_max_id : Int)
    (fuel : Nat) (m0 : Int)
    (hsorted : List.Pairwise (fun a b => a.remote_id < b.remote_id) source) :
    (∀ c ∈ fetchLoop id_task hash_method source batch_size marker_max_id fuel
        m0, c.fetchedInc = c.upserted.length ∧ c.upserted ≠ []) ∧
    (∀ i j (hi : i < (fetchLoop id_task hash_method source batch_size
          marker_max_id fuel m0).length)
        (hj : j < (fetchLoop id_task hash_method source batch_size
          marker_max_id fuel m0).length), i ≤ j →
      ((fetchLoop id_task hash_method source batch_size marker_max_id fuel
          m0).get ⟨i, hi⟩).newMarker ≤
        ((fetchLoop id_task hash_method source batch_size marker_max_id fuel
          m0).get ⟨j, hj⟩).newMarker) ∧
    (∀ j (hj : j < (fetchLoop id_task hash_method source batch_size
        marker_max_id fuel m0).length),
      ((fetchLoop id_task hash_method source batch_size marker_max_id fuel
          m0).get ⟨j, hj⟩).newMarker =
        intMaxOf ((((fetchLoop id_task hash_method source batch_size
          marker_max_id fuel m0).take (j + 1)).map upsertedIds).flatten) m0) := by
  have hg := fetchLoop_good id_task hash_method source batch_size marker_max_id
    hsorted fuel m0
  exact ⟨goodTrace_commits _ _ hg, goodTrace_markers_mono _ _ hg,
    goodTrace_marker_max _ _ hg⟩

/-- Concrete three-row source table for the fetch witness. -/
def fetchSource : List SourceRow :=
  [{ remote_id := 1, text_value := some "ok" },
   { remote_id := 2, text_value := some "bad txt" },
   { remote_id := 3, text_value := some "fine" }]

/-- C3 witness: the fetch-marker theorem applied to a concrete sorted source
and batch size two, discharging its hypotheses there. -/
theorem fetch_marker_monotonic_witness :
    (∀ c ∈ fetchLoop 3 "sha256" fetchSource 2 3 4 0,
        c.fetchedInc = c.upserted.length ∧ c.upserted ≠ []) ∧
    (∀ i j (hi : i < (fetchLoop 3 "sha256" fetchSource 2 3 4 0).length)
        (hj : j < (fetchLoop 3 "sha256" fetchSource 2 3 4 0).length), i ≤ j →
      ((fetchLoop 3 "sha256" fetchSource 2 3 4 0).get ⟨i, hi⟩).newMarker ≤
        ((fetchLoop 3 "sha256" fetchSource 2 3 4 0).get ⟨j, hj⟩).newMarker) ∧
    (∀ j (hj : j < (fetchLoop 3 "sha256" fetchSource 2 3 4 0).length),
      ((fetchLoop 3 "sha256" fetchSource 2 3 4 0).get ⟨j, hj⟩).newMarker =
        intMaxOf ((((fetchLoop 3 "sha256" fetchSource 2 3 4 0).take
          (j + 1)).map upsertedIds).flatten) 0) :=
  fetch_marker_monotonic 3 "sha256" fetchSource 2 3 4 0 (by decide)

/-- Update tuple built by the resync loop for one changed row, in the source's
tuple order: remote text, hash, task id, remote id (src/lib/task_item.py
line 610). -/
structure ResyncUpdate where
  text : String
  hash : String
  id_task : Nat
  remote_id : Int
deriving DecidableEq, Repr

/-- UPDATE statement run by executemany for one resync tuple
(src/lib/task_item.py lines 617-621): overwrite text_original, original_hash
and fetched_at on every row matching the task and remote id; every other
column is untouched. -/
def applyResyncUpdate (now : Nat) (u : ResyncUpdate) (r : TaskItemRow) :
    TaskItemRow :=
  if r.id_task = u.id_task ∧ r.remote_id = some u.remote_id then
    { r with text_original := u.text, original_hash := u.hash,
             fetched_at := some now }
  else r

/-- Locally stored text for one (task, remote id) pair: the dictionary built
from the SELECT at src/lib/task_item.py lines 592-599.  Under the uniqueness
invariant on (id_task, remote_id) the first matching row is the only one. -/
def localTextFor (items : List TaskItemRow) (id_task : Nat) (rid : Int) :
    Option String :=
  (items.find? (fun r => r.id_task == id_task && r.remote_id == some rid)).map
    (fun r => r.text_original)

/-- Update list the resync loop builds for one batch (src/lib/task_item.py
lines 601-610): the rows whose current source text (NULL read as the empty
string) differs from the locally stored text (missing or NULL read as the
empty string). -/
def resyncBatchUpdates (items : List TaskItemRow) (id_task : Nat)
    (hash_method : String) (rows : List SourceRow) : List ResyncUpdate :=
  rows.filterMap (fun row =>
    let remote_text := row.text_value.getD ""
    let local_text := (localTextFor items id_task row.remote_id).getD ""
    if remote_text ≠ local_text then
      some { text := remote_text,
             hash := calculate_hash remote_text hash_method,
             id_task := id_task, remote_id := row.remote_id }
    else none)

/-- Resync loop of resynch_remote_batch (src/lib/task_item.py lines 570-645),
threading the item table, the task row and the updated_total counter.  Fuel
bounds the iteration count; the characterization theorem supplies enough fuel
for the loop to reach its stopping condition.  Each iteration fetches a batch,
rewrites the differing rows and the task counters in one transaction (marker
advanced even for a batch with zero differences), moves the cursor to the
batch's last id, and stops after a short or empty batch. -/
def resyncLoop (source : List SourceRow) (id_task : Nat) (hash_method : String)
    (batch_size : Nat) (marker_max_id : Int) (now : Nat) :
    Nat → Int → List TaskItemRow → TaskRow → Nat →
    List TaskItemRow × TaskRow × Nat
  | 0, _, items, task, updatedTotal => (items, task, updatedTotal)
  | fuel + 1, current_marker, items, task, updatedTotal =>
    if current_marker < marker_max_id then
      match runFetchQuery source current_marker batch_size with
      | [] => (items, task, updatedTotal)
      | first :: restRows =>
        let row_dicts := first :: restRows
        let lastRow := row_dicts.getLast (List.cons_ne_nil _ _)
        let updates := resyncBatchUpdates items id_task hash_method row_dicts
        let last_remote_id := lastRow.remote_id
        let items' :=
          updates.foldl (fun acc u => acc.map (applyResyncUpdate now u)) items
        let task' :=
          if updates.isEmpty then { task with marker_id := last_remote_id }
          else
            { task with
              records_updated := task.records_updated + updates.length,
              marker_id := last_remote_id,
              description := appendLog task.description
                ("Resynchronizacja: zaktualizowano " ++
                 toString updates.length ++ " rekordów (zakres_remote_id " ++
                 toString first.remote_id ++ "-" ++
                 toString lastRow.remote_id ++ ").") }
        let updatedTotal' := updatedTotal + updates.length
        if row_dicts.length < batch_size then (items', task', updatedTotal')
        else resyncLoop source id_task hash_method batch_size marker_max_id now
          fuel last_remote_id items' task' updatedTotal'
    else (items, task, updatedTotal)

/-- Embeds the non-raising run of resynch_remote_batch (src/lib/task_item.py
lines 531-666): reset the cursor to zero when a previous pass already finished
the range, walk the range in batches, then in a final commit append the
summary note and write sync_stage done and marker_id equal to marker_max_id.
The loop gets one more unit of fuel than the source has rows, which the
characterization theorem shows reaches the stopping condition.  Identifier
sanitation lives in build_fetch_query; connections and logging are out of
scope. -/
def resynch_remote_batch (source : List SourceRow) (batch_size : Nat)
    (task : TaskRow) (items : List TaskItemRow) (now : Nat) :
    List TaskItemRow × TaskRow :=
  let id_task := task.id_task
  let hash_method := (task.hash_method.getD "sha256").toLower
  let marker_max_id := task.marker_max_id
  let current_marker0 := task.marker_id
  let current_marker :=
    if current_marker0 ≥ marker_max_id then 0 else current_marker0
  let res := resyncLoop source id_task hash_method batch_size marker_max_id
    now (source.length + 1) current_marker items task 0
  (res.1,
   { res.2.1 with
     description := appendLog res.2.1.description
       ("Resynchronizacja zakończona. Zaktualizowano " ++
        toString res.2.2 ++ " rekordów."),
     sync_stage := "done", marker_id := marker_max_id })

/-- Source rows of the walked range whose text differs from the locally stored
text: exactly the rows a complete resync pass rewrites. -/
def resyncTargets (source : List SourceRow) (items : List TaskItemRow)
    (id_task : Nat) (cursor : Int) : List SourceRow :=
  (source.filter (fun s => cursor < s.remote_id)).filter (fun s =>
    s.text_value.getD "" ≠ (localTextFor items id_task s.remote_id).getD "")

/-- Pointwise effect of a complete resync pass on one row: a row matching a
differing source row of the range receives that row's text, its hash and the
fetch timestamp; any other row — and any other column — is left unchanged. -/
def resyncRowEffect (targets : List SourceRow) (id_task : Nat)
    (hash_method : String) (now : Nat) (r : TaskItemRow) : TaskItemRow :=
  match targets.find? (fun s =>
      r.id_task == id_task && r.remote_id == some s.remote_id) with
  | some s =>
    { r with text_original := s.text_value.getD "",
             original_hash := calculate_hash (s.text_value.getD "") hash_method,
             fetched_at := some now }
  | none => r

/-- Effect of a complete resync pass on the whole item table. -/
def applyResyncAll (targets : List SourceRow) (id_task : Nat)
    (hash_method : String) (now : Nat) (items : List TaskItemRow) :
    List TaskItemRow :=
  items.map (resyncRowEffect targets id_task hash_method now)

/-- Sequential application of a list of resync update tuples to one row, as a
single pass: the first matching tuple wins (the tuples of one pass carry
pairwise distinct remote ids, so at most one matches). -/
def applyResyncUpdates (now : Nat) (us : List ResyncUpdate)
    (r : TaskItemRow) : TaskItemRow :=
  match us.find? (fun u =>
      r.id_task == u.id_task && r.remote_id == some u.remote_id) with
  | some u =>
    { r with text_original := u.text, original_hash := u.hash,
             fetched_at := some now }
  | none => r

/-- Update tuple a differing source row contributes. -/
def toResyncUpdate (id_task : Nat) (hash_method : String) (s : SourceRow) :
    ResyncUpdate :=
  { text := s.text_value.getD "",
    hash := calculate_hash (s.text_value.getD "") hash_method,
    id_task := id_task, remote_id := s.remote_id }

/-- Concrete already-fetched source table for the resync runs: three rows,
ascending ids, one NULL text. -/
def c6Source : List SourceRow :=
  [{ remote_id := 1, text_value := some "alpha" },
   { remote_id := 2, text_value := some "beta" },
   { remote_id := 3, text_value := none }]

/-- Concrete local task_item rows for the resync runs: the row for remote id 1
already matches the source, the row for remote id 2 differs. -/
def c6Items : List TaskItemRow :=
  [{ id_task_item := 1, id_task := 7, remote_id := some 1,
     text_original := "alpha", original_hash := "sha256:alpha",
     text_corrected := none, status := "pending", similarity_score := none,
     tokens_input := none, tokens_output := none, ai_model := none,
     finish_reason := none, fetched_at := none, processed_at := none },
   { id_task_item := 2, id_task := 7, remote_id := some 2,
     text_original := "old", original_hash := "sha256:old",
     text_corrected := none, status := "pending", similarity_score := none,
     tokens_input := none, tokens_output := none, ai_model := none,
     finish_reason := none, fetched_at := none, processed_at := none }]

/-- Concrete task row mid-range (marker below the ceiling). -/
def c6Task : TaskRow :=
  { id_task := 7, status := "sync", sync_stage := "resynch",
    hash_method := some "SHA256", marker_id := 0, marker_max_id := 3,
    records_total := 3, records_fetched := 3, records_updated := 0,
    records_processed := 0, description := none, error_log := none }

/-- Concrete task row whose stored resync cursor already reached the ceiling,
as left behind by a completed earlier resync pass. -/
def c10Task : TaskRow :=
  { id_task := 7, status := "sync", sync_stage := "resynch",
    hash_method := some "SHA256", marker_id := 3, marker_max_id := 3,
    records_total := 3, records_fetched := 3, records_updated := 0,
    records_processed := 0, description := none, error_log := none }

theorem resyncBatchUpdates_eq (items : List TaskItemRow) (id_task : Nat)
    (hash_method : String) :
    ∀ rows : List SourceRow,
      resyncBatchUpdates items id_task hash_method rows =
        (rows.filter (fun s =>
          s.text_value.getD "" ≠ (localTextFor items id_task s.remote_id).getD "")).map
          (toResyncUpdate id_task hash_method) := by
  intro rows
  induction rows with
  | nil => rfl
  | cons x xs ih =>
    by_cases hx : x.text_value.getD "" ≠ (localTextFor items id_task x.remote_id).getD ""
    · have hhead : resyncBatchUpdates items id_task hash_method (x :: xs) =
          toResyncUpdate id_task hash_method x ::
            resyncBatchUpdates items id_task hash_method xs := by
        simp only [resyncBatchUpdates, List.filterMap_cons]
        rw [if_pos hx]
        rfl
      have hfil : (x :: xs).filter (fun s =>
          s.text_value.getD "" ≠ (localTextFor items id_task s.remote_id).getD "") =
          x :: xs.filter (fun s =>
            s.text_value.getD "" ≠ (localTextFor items id_task s.remote_id).getD "") := by
        simp only [List.filter_cons]
        rw [if_pos (by simpa using hx)]
      rw [hhead, hfil, List.map_cons, ih]
    · have hhead : resyncBatchUpdates items id_task hash_method (x :: xs) =
          resyncBatchUpdates items id_task hash_method xs := by
        simp only [resyncBatchUpdates, List.filterMap_cons]
        rw [if_neg hx]
      have hfil : (x :: xs).filter (fun s =>
          s.text_value.getD "" ≠ (localTextFor items id_task s.remote_id).getD "") =
          xs.filter (fun s =>
            s.text_value.getD "" ≠ (localTextFor items id_task s.remote_id).getD "") := by
        simp only [List.filter_cons]
        rw [if_neg (by simpa using hx)]
      rw [hhead, hfil, ih]

theorem applyResyncUpdate_keyFields (now : Nat) (u : ResyncUpdate)
    (r : TaskItemRow) :
    (applyResyncUpdate now u r).id_task = r.id_task ∧
    (applyResyncUpdate now u r).remote_id = r.remote_id := by
  unfold applyResyncUpdate
  split
  · exact ⟨rfl, rfl⟩
  · exact ⟨rfl, rfl⟩

theorem applyResyncUpdates_eq_self (now : Nat) (us : List ResyncUpdate)
    (r : TaskItemRow)
    (h : ∀ u ∈ us, ¬(r.id_task = u.id_task ∧ r.remote_id = some u.remote_id)) :
    applyResyncUpdates now us r = r := by
  have hnone : us.find? (fun u =>
      r.id_task == u.id_task && r.remote_id == some u.remote_id) = none := by
    rw [List.find?_eq_none]
    intro u hu
    simp only [Bool.and_eq_true, beq_iff_eq, not_and]
    intro h1 h2
    exact h u hu ⟨h1, h2⟩
  unfold applyResyncUpdates
  rw [hnone]

theorem foldl_resync_eq_map (now : Nat) :
    ∀ us : List ResyncUpdate,
      List.Pairwise (fun a b =>
        ¬(a.id_task = b.id_task ∧ a.remote_id = b.remote_id)) us →
      ∀ items : List TaskItemRow,
        us.foldl (fun acc u => acc.map (applyResyncUpdate now u)) items =
          items.map (applyResyncUpdates now us) := by
  intro us
  induction us with
  | nil =>
    intro _ items
    simp only [List.foldl_nil]
    have h : ∀ r, applyResyncUpdates now [] r = r := fun r => rfl
    rw [List.map_id'' h]
  | cons u us' ih =>
    intro hd items
    have hd' := (List.pairwise_cons.mp hd).2
    have hdu := (List.pairwise_cons.mp hd).1
    simp only [List.foldl_cons]
    rw [ih hd' (items.map (applyResyncUpdate now u)), List.map_map]
    apply List.map_congr_left
    intro r _
    simp only [Function.comp]
    by_cases hm : r.id_task = u.id_task ∧ r.remote_id = some u.remote_id
    · have hr' : applyResyncUpdate now u r =
          { r with text_original := u.text, original_hash := u.hash,
                   fetched_at := some now } := by
        unfold applyResyncUpdate
        rw [if_pos hm]
      have hcons : applyResyncUpdates now (u :: us') r =
          { r with text_original := u.text, original_hash := u.hash,
                   fetched_at := some now } := by
        unfold applyResyncUpdates
        rw [List.find?_cons_of_pos _ (by simp [hm.1, hm.2])]
      rw [hr', hcons]
      refine applyResyncUpdates_eq_self now us' _ ?_
      intro u' hu' hc
      refine hdu u' hu' ⟨hm.1.symm.trans hc.1, ?_⟩
      have h2 : r.remote_id = some u'.remote_id := hc.2
      rw [hm.2] at h2
      injection h2
    · have hr : applyResyncUpdate now u r = r := by
        unfold applyResyncUpdate
        rw [if_neg hm]
      have hstep : applyResyncUpdates now (u :: us') r =
          applyResyncUpdates now us' r := by
        unfold applyResyncUpdates
        rw [List.find?_cons_of_neg _ (by
          simp only [Bool.and_eq_true, beq_iff_eq, not_and]
          intro h1 h2
          exact hm ⟨h1, h2⟩)]
      rw [hr, hstep]

theorem resyncRowEffect_append (A B : List SourceRow) (id_task : Nat)
    (hash_method : String) (now : Nat)
    (hdisj : ∀ a ∈ A, ∀ b ∈ B, a.remote_id ≠ b.remote_id) (r : TaskItemRow) :
    resyncRowEffect (A ++ B) id_task hash_method now r =
      resyncRowEffect B id_task hash_method now
        (resyncRowEffect A id_task hash_method now r) := by
  unfold resyncRowEffect
  rw [List.find?_append]
  cases hA : A.find? (fun s =>
      r.id_task == id_task && r.remote_id == some s.remote_id) with
  | some a =>
    have hpa := List.find?_some hA
    have hmema := List.mem_of_find?_eq_some hA
    simp only [Bool.and_eq_true, beq_iff_eq] at hpa
    have hBnone : B.find? (fun s =>
        r.id_task == id_task && r.remote_id == some s.remote_id) = none := by
      rw [List.find?_eq_none]
      intro b hb
      simp only [Bool.and_eq_true, beq_iff_eq, not_and]
      intro _ h2
      rw [hpa.2] at h2
      have hab : a.remote_id = b.remote_id := by
        injection h2
      exact absurd hab (hdisj a hmema b hb)
    simp only [Option.or]
    rw [hBnone]
  | none =>
    simp only [Option.or]

theorem applyResyncAll_nil (id_task : Nat) (hash_method : String) (now : Nat)
    (items : List TaskItemRow) :
    applyResyncAll [] id_task hash_method now items = items := by
  unfold applyResyncAll
  exact List.map_id'' (fun r => rfl) items

theorem applyResyncUpdates_keyFields (now : Nat) (us : List ResyncUpdate)
    (r : TaskItemRow) :
    (applyResyncUpdates now us r).id_task = r.id_task ∧
    (applyResyncUpdates now us r).remote_id = r.remote_id := by
  unfold applyResyncUpdates
  cases us.find? (fun u =>
      r.id_task == u.id_task && r.remote_id == some u.remote_id) with
  | none => exact ⟨rfl, rfl⟩
  | some u => exact ⟨rfl, rfl⟩

theorem localTextFor_stable (items : List TaskItemRow)
    (g : TaskItemRow → TaskItemRow) (id_task : Nat) (rid : Int)
    (hkeys : ∀ r, (g r).id_task = r.id_task ∧ (g r).remote_id = r.remote_id)
    (hfix : ∀ r, r.remote_id = some rid → g r = r) :
    localTextFor (items.map g) id_task rid = localTextFor items id_task rid := by
  unfold localTextFor
  rw [List.find?_map]
  have hp : ((fun r => r.id_task == id_task && r.remote_id == some rid) ∘ g) =
      (fun r => r.id_task == id_task && r.remote_id == some rid) := by
    funext r
    simp [Function.comp, (hkeys r).1, (hkeys r).2]
  rw [hp]
  cases hf : items.find? (fun r =>
      r.id_task == id_task && r.remote_id == some rid) with
  | none => rfl
  | some r0 =>
    have hpred := List.find?_some hf
    simp only [Bool.and_eq_true, beq_iff_eq] at hpred
    simp [hfix r0 hpred.2]

theorem applyResyncUpdates_map_toUpdate (now : Nat) (id_task : Nat)
    (hash_method : String) (A : List SourceRow) (r : TaskItemRow) :
    applyResyncUpdates now (A.map (toResyncUpdate id_task hash_method)) r =
      resyncRowEffect A id_task hash_method now r := by
  unfold applyResyncUpdates resyncRowEffect
  rw [List.find?_map]
  have hp : ((fun u => r.id_task == u.id_task && r.remote_id == some u.remote_id) ∘
      toResyncUpdate id_task hash_method) =
      (fun s => r.id_task == id_task && r.remote_id == some s.remote_id) := by
    funext s
    rfl
  rw [hp]
  cases hf : A.find? (fun s =>
      r.id_task == id_task && r.remote_id == some s.remote_id) with
  | none => rfl
  | some s => rfl

theorem resyncLoop_stop_max (source : List SourceRow) (id_task : Nat)
    (hash_method : String) (batch_size : Nat) (marker_max_id : Int) (now : Nat)
    (fuel : Nat) (current : Int) (items : List TaskItemRow) (task : TaskRow)
    (updatedTotal : Nat) (hlt : ¬ current < marker_max_id) :
    resyncLoop source id_task hash_method batch_size marker_max_id now
      (fuel + 1) current items task updatedTotal = (items, task, updatedTotal) := by
  simp only [resyncLoop, if_neg hlt]

theorem resyncLoop_stop_empty (source : List SourceRow) (id_task : Nat)
    (hash_method : String) (batch_size : Nat) (marker_max_id : Int) (now : Nat)
    (fuel : Nat) (current : Int) (items : List TaskItemRow) (task : TaskRow)
    (updatedTotal : Nat) (hlt : current < marker_max_id)
    (hrows : runFetchQuery source current batch_size = []) :
    resyncLoop source id_task hash_method batch_size marker_max_id now
      (fuel + 1) current items task updatedTotal = (items, task, updatedTotal) := by
  simp only [resyncLoop, if_pos hlt, hrows]

theorem resyncLoop_step_cons (source : List SourceRow) (id_task : Nat)
    (hash_method : String) (batch_size : Nat) (marker_max_id : Int) (now : Nat)
    (fuel : Nat) (current : Int) (items : List TaskItemRow) (task : TaskRow)
    (updatedTotal : Nat) (first : SourceRow) (restRows : List SourceRow)
    (hlt : current < marker_max_id)
    (hrows : runFetchQuery source current batch_size = first :: restRows) :
    resyncLoop source id_task hash_method batch_size marker_max_id now
      (fuel + 1) current items task updatedTotal =
      (let rows := first :: restRows
       let lastRow := rows.getLast (List.cons_ne_nil _ _)
       let updates := resyncBatchUpdates items id_task hash_method rows
       let items2 :=
         updates.foldl (fun acc u => acc.map (applyResyncUpdate now u)) items
       let task2 :=
         if updates.isEmpty then { task with marker_id := lastRow.remote_id }
         else
           { task with
             records_updated := task.records_updated + updates.length,
             marker_id := lastRow.remote_id,
             description := appendLog task.description
               ("Resynchronizacja: zaktualizowano " ++
                toString updates.length ++ " rekordów (zakres_remote_id " ++
                toString first.remote_id ++ "-" ++
                toString lastRow.remote_id ++ ").") }
       if rows.length < batch_size then (items2, task2, updatedTotal + updates.length)
       else resyncLoop source id_task hash_method batch_size marker_max_id now
         fuel lastRow.remote_id items2 task2 (updatedTotal + updates.length)) := by
  simp only [resyncLoop, if_pos hlt, hrows]

theorem getLast_le_of_pairwise {l : List SourceRow}
    (hp : List.Pairwise (fun a b => a.remote_id < b.remote_id) l) (h : l ≠ []) :
    ∀ r ∈ l, r.remote_id ≤ (l.getLast h).remote_id :=
  pairwise_lt_getLast hp (List.getLast?_eq_getLast l h ▸ rfl)

theorem resyncLoop_spec (source : List SourceRow) (id_task : Nat)
    (hash_method : String) (batch_size : Nat) (marker_max_id : Int) (now : Nat)
    (hsorted : List.Pairwise (fun a b => a.remote_id < b.remote_id) source)
    (hb : 0 < batch_size) :
    ∀ (fuel : Nat) (current : Int) (items : List TaskItemRow) (task : TaskRow)
      (updatedTotal : Nat),
      (source.filter (fun s => current < s.remote_id)).length < fuel →
      (∀ s ∈ source, s.remote_id ≤ marker_max_id) →
      (resyncLoop source id_task hash_method batch_size marker_max_id now fuel
          current items task updatedTotal).1 =
        applyResyncAll (resyncTargets source items id_task current) id_task
          hash_method now items ∧
      (resyncLoop source id_task hash_method batch_size marker_max_id now fuel
          current items task updatedTotal).2.1.records_updated =
        task.records_updated +
          ((resyncTargets source items id_task current).length : Int) ∧
      (resyncLoop source id_task hash_method batch_size marker_max_id now fuel
          current items task updatedTotal).2.2 =
        updatedTotal + (resyncTargets source items id_task current).length := by
  intro fuel
  induction fuel with
  | zero =>
    intro current items task updatedTotal hfuel _
    exact absurd hfuel (Nat.not_lt_zero _)
  | succ fuel ih =>
    intro current items task updatedTotal hfuel hmax
    by_cases hlt : current < marker_max_id
    · rcases hrows : runFetchQuery source current batch_size with _ | ⟨first, restRows⟩
      · have hFnil : source.filter (fun s => current < s.remote_id) = [] := by
          have htk : (source.filter (fun s => current < s.remote_id)).take
              batch_size = [] := hrows
          rcases List.take_eq_nil_iff.mp htk with h | h
          · exact absurd h.symm (Nat.ne_of_lt hb)
          · exact h
        have htar : resyncTargets source items id_task current = [] := by
          unfold resyncTargets
          rw [hFnil]
          rfl
        rw [resyncLoop_stop_empty source id_task hash_method batch_size
          marker_max_id now fuel current items task updatedTotal hlt hrows, htar,
          applyResyncAll_nil]
        refine ⟨rfl, ?_, ?_⟩
        · simp
        · simp
      · -- one committed batch
        have htake : (source.filter (fun s => current < s.remote_id)).take
            batch_size = first :: restRows := hrows
        have hFpair : List.Pairwise (fun a b => a.remote_id < b.remote_id)
            (source.filter (fun s => current < s.remote_id)) :=
          List.Pairwise.filter _ hsorted
        have hrowspair : List.Pairwise (fun a b => a.remote_id < b.remote_id)
            (first :: restRows) := by
          rw [← htake]
          exact List.Pairwise.sublist (List.take_sublist _ _) hFpair
        have hrowssub : ∀ r ∈ (first :: restRows),
            r ∈ source.filter (fun s => current < s.remote_id) := by
          intro r hr
          rw [← htake] at hr
          exact List.mem_of_mem_take hr
        have hgt : ∀ r ∈ (first :: restRows), current < r.remote_id := by
          intro r hr
          exact of_decide_eq_true (List.mem_filter.mp (hrowssub r hr)).2
        have hlastle : ∀ r ∈ (first :: restRows), r.remote_id ≤
            ((first :: restRows).getLast (List.cons_ne_nil first restRows)).remote_id :=
          getLast_le_of_pairwise hrowspair (List.cons_ne_nil first restRows)
        have hlastmem : (first :: restRows).getLast
            (List.cons_ne_nil first restRows) ∈ (first :: restRows) :=
          List.getLast_mem _
        have hupd : resyncBatchUpdates items id_task hash_method
            (first :: restRows) =
            ((first :: restRows).filter (fun s =>
              s.text_value.getD "" ≠
                (localTextFor items id_task s.remote_id).getD "")).map
              (toResyncUpdate id_task hash_method) :=
          resyncBatchUpdates_eq items id_task hash_method (first :: restRows)
        have hApair : List.Pairwise (fun a b => a.remote_id < b.remote_id)
            ((first :: restRows).filter (fun s =>
              s.text_value.getD "" ≠
                (localTextFor items id_task s.remote_id).getD "")) :=
          List.Pairwise.filter _ hrowspair
        have hdistinct : List.Pairwise (fun a b =>
            ¬(a.id_task = b.id_task ∧ a.remote_id = b.remote_id))
            (((first :: restRows).filter (fun s =>
              s.text_value.getD "" ≠
                (localTextFor items id_task s.remote_id).getD "")).map
              (toResyncUpdate id_task hash_method)) := by
          rw [List.pairwise_map]
          refine hApair.imp ?_
          intro a b hab hc
          exact absurd hc.2 (ne_of_lt hab)
        have hitems2 : (resyncBatchUpdates items id_task hash_method
              (first :: restRows)).foldl
              (fun acc u => acc.map (applyResyncUpdate now u)) items =
            applyResyncAll ((first :: restRows).filter (fun s =>
              s.text_value.getD "" ≠
                (localTextFor items id_task s.remote_id).getD ""))
              id_task hash_method now items := by
          rw [hupd, foldl_resync_eq_map now _ hdistinct items]
          unfold applyResyncAll
          exact List.map_congr_left (fun r _ =>
            applyResyncUpdates_map_toUpdate now id_task hash_method _ r)
        have hstep := resyncLoop_step_cons source id_task hash_method batch_size
          marker_max_id now fuel current items task updatedTotal first restRows
          hlt hrows
        dsimp only at hstep
        by_cases hlen : (first :: restRows).length < batch_size
        · -- short batch: the whole remaining range was in this batch
          rw [if_pos hlen] at hstep
          have hFrows : source.filter (fun s => current < s.remote_id) =
              first :: restRows := by
            by_cases hFb : (source.filter (fun s =>
                current < s.remote_id)).length ≤ batch_size
            · rw [List.take_of_length_le hFb] at htake
              exact htake
            · exfalso
              have hlen2 : ((source.filter (fun s =>
                  current < s.remote_id)).take batch_size).length = batch_size := by
                rw [List.length_take]
                omega
              rw [htake] at hlen2
              omega
          have htar : resyncTargets source items id_task current =
              (first :: restRows).filter (fun s =>
                s.text_value.getD "" ≠
                  (localTextFor items id_task s.remote_id).getD "") := by
            unfold resyncTargets
            rw [hFrows]
          rw [hstep, htar]
          refine ⟨?_, ?_, ?_⟩
          · exact hitems2
          · by_cases hAe : resyncBatchUpdates items id_task hash_method
                (first :: restRows) = []
            · have hfilnil : ((first :: restRows).filter (fun s =>
                  s.text_value.getD "" ≠
                    (localTextFor items id_task s.remote_id).getD "")) = [] := by
                have h2 := hupd
                rw [hAe] at h2
                exact List.map_eq_nil_iff.mp h2.symm
              rw [hAe, hfilnil]
              simp
            · have hne : ¬(resyncBatchUpdates items id_task hash_method
                  (first :: restRows)).isEmpty := by
                simpa [List.isEmpty_iff] using hAe
              rw [if_neg hne]
              simp only [hupd, List.length_map]
          · simp only [hupd, List.length_map]
        · -- full batch: recurse from the last id of the batch
          rw [if_neg hlen] at hstep
          have hrowslen : (first :: restRows).length = batch_size := by
            have hlt2 : ((source.filter (fun s => current < s.remote_id)).take
                batch_size).length = min batch_size
                (source.filter (fun s => current < s.remote_id)).length :=
              List.length_take _ _
            rw [htake] at hlt2
            omega
          have hFsplit : source.filter (fun s => current < s.remote_id) =
              (first :: restRows) ++
                (source.filter (fun s => current < s.remote_id)).drop
                  batch_size := by
            rw [← htake]
            exact (List.take_append_drop batch_size _).symm
          have hcl : current < ((first :: restRows).getLast
              (List.cons_ne_nil first restRows)).remote_id :=
            hgt _ hlastmem
          have hdropgt : ∀ y ∈ (source.filter (fun s =>
                current < s.remote_id)).drop batch_size,
              ((first :: restRows).getLast
                (List.cons_ne_nil first restRows)).remote_id < y.remote_id := by
            have hpa := (List.pairwise_append.mp (hFsplit ▸ hFpair)).2.2
            intro y hy
            exact hpa _ hlastmem y hy
          have h1 : ((source.filter (fun s => current < s.remote_id)).filter
                (fun s => ((first :: restRows).getLast
                  (List.cons_ne_nil first restRows)).remote_id < s.remote_id)) =
              source.filter (fun s => ((first :: restRows).getLast
                (List.cons_ne_nil first restRows)).remote_id < s.remote_id) := by
            rw [List.filter_filter]
            refine List.filter_congr ?_
            intro x _
            by_cases hx : ((first :: restRows).getLast
                (List.cons_ne_nil first restRows)).remote_id < x.remote_id
            · simp [hx, lt_trans hcl hx]
            · simp [hx]
          have hnilA : (first :: restRows).filter
              (fun s => ((first :: restRows).getLast
                (List.cons_ne_nil first restRows)).remote_id < s.remote_id) =
              [] := by
            rw [List.filter_eq_nil_iff]
            intro r hr
            simp only [decide_eq_true_eq]
            exact not_lt.mpr (hlastle r hr)
          have hself : (((source.filter (fun s => current < s.remote_id)).drop
                batch_size).filter (fun s => ((first :: restRows).getLast
                  (List.cons_ne_nil first restRows)).remote_id < s.remote_id)) =
              (source.filter (fun s => current < s.remote_id)).drop
                batch_size := by
            rw [List.filter_eq_self]
            intro r hr
            simp only [decide_eq_true_eq]
            exact hdropgt r hr
          have hF2 : source.filter (fun s => ((first :: restRows).getLast
                (List.cons_ne_nil first restRows)).remote_id < s.remote_id) =
              (source.filter (fun s => current < s.remote_id)).drop
                batch_size := by
            rw [← h1]
            conv_lhs => rw [hFsplit]
            rw [List.filter_append, hnilA, hself, List.nil_append]
          have hfuel2 : (source.filter (fun s => ((first :: restRows).getLast
                (List.cons_ne_nil first restRows)).remote_id <
                  s.remote_id)).length < fuel := by
            rw [hF2]
            have hlen3 : (source.filter (fun s =>
                current < s.remote_id)).length =
                (first :: restRows).length +
                  ((source.filter (fun s => current < s.remote_id)).drop
                    batch_size).length := by
              conv_lhs => rw [hFsplit]
              rw [List.length_append]
            have hpos : 0 < (first :: restRows).length := Nat.succ_pos _
            omega
          have hAle : ∀ a ∈ (first :: restRows).filter (fun s =>
                s.text_value.getD "" ≠
                  (localTextFor items id_task s.remote_id).getD ""),
              a.remote_id ≤ ((first :: restRows).getLast
                (List.cons_ne_nil first restRows)).remote_id := by
            intro a ha
            exact hlastle a (List.mem_of_mem_filter ha)
          have hgkeys : ∀ r : TaskItemRow,
              ((resyncRowEffect ((first :: restRows).filter (fun s =>
                  s.text_value.getD "" ≠
                    (localTextFor items id_task s.remote_id).getD ""))
                id_task hash_method now) r).id_task = r.id_task ∧
              ((resyncRowEffect ((first :: restRows).filter (fun s =>
                  s.text_value.getD "" ≠
                    (localTextFor items id_task s.remote_id).getD ""))
                id_task hash_method now) r).remote_id = r.remote_id := by
            intro r
            rw [← applyResyncUpdates_map_toUpdate now id_task hash_method
              ((first :: restRows).filter (fun s =>
                s.text_value.getD "" ≠
                  (localTextFor items id_task s.remote_id).getD "")) r]
            exact applyResyncUpdates_keyFields now _ r
          have hgfix : ∀ rid : Int, ((first :: restRows).getLast
                (List.cons_ne_nil first restRows)).remote_id < rid →
              ∀ r : TaskItemRow, r.remote_id = some rid →
              resyncRowEffect ((first :: restRows).filter (fun s =>
                  s.text_value.getD "" ≠
                    (localTextFor items id_task s.remote_id).getD ""))
                id_task hash_method now r = r := by
            intro rid hrid r hr
            have hnone : ((first :: restRows).filter (fun s =>
                s.text_value.getD "" ≠
                  (localTextFor items id_task s.remote_id).getD "")).find?
                (fun s => r.id_task == id_task &&
                  r.remote_id == some s.remote_id) = none := by
              rw [List.find?_eq_none]
              intro s hs
              simp only [Bool.and_eq_true, beq_iff_eq, not_and]
              intro _ h2
              rw [hr] at h2
              have hix : rid = s.remote_id := by injection h2
              rw [hix] at hrid
              exact absurd hrid (not_lt.mpr (hAle s hs))
            unfold resyncRowEffect
            rw [hnone]
          have hstable : resyncTargets source
              (applyResyncAll ((first :: restRows).filter (fun s =>
                  s.text_value.getD "" ≠
                    (localTextFor items id_task s.remote_id).getD ""))
                id_task hash_method now items) id_task
              ((first :: restRows).getLast
                (List.cons_ne_nil first restRows)).remote_id =
              resyncTargets source items id_task
                ((first :: restRows).getLast
                  (List.cons_ne_nil first restRows)).remote_id := by
            unfold resyncTargets
            refine List.filter_congr ?_
            intro s hs
            have hsgt : ((first :: restRows).getLast
                (List.cons_ne_nil first restRows)).remote_id < s.remote_id :=
              of_decide_eq_true (List.mem_filter.mp hs).2
            have hloc : localTextFor
                (applyResyncAll ((first :: restRows).filter (fun s2 =>
                    s2.text_value.getD "" ≠
                      (localTextFor items id_task s2.remote_id).getD ""))
                  id_task hash_method now items) id_task s.remote_id =
                localTextFor items id_task s.remote_id := by
              unfold applyResyncAll
              exact localTextFor_stable items _ id_task s.remote_id hgkeys
                (fun r hrr => hgfix s.remote_id hsgt r hrr)
            rw [hloc]
          have hsplitT : resyncTargets source items id_task current =
              ((first :: restRows).filter (fun s =>
                s.text_value.getD "" ≠
                  (localTextFor items id_task s.remote_id).getD "")) ++
              resyncTargets source items id_task
                ((first :: restRows).getLast
                  (List.cons_ne_nil first restRows)).remote_id := by
            unfold resyncTargets
            conv_lhs => rw [hFsplit]
            rw [List.filter_append, hF2]
          have hdisjAB : ∀ a ∈ ((first :: restRows).filter (fun s =>
                s.text_value.getD "" ≠
                  (localTextFor items id_task s.remote_id).getD "")),
              ∀ b2 ∈ resyncTargets source items id_task
                ((first :: restRows).getLast
                  (List.cons_ne_nil first restRows)).remote_id,
              a.remote_id ≠ b2.remote_id := by
            intro a ha b2 hb2
            unfold resyncTargets at hb2
            have hb2gt : ((first :: restRows).getLast
                (List.cons_ne_nil first restRows)).remote_id < b2.remote_id :=
              of_decide_eq_true (List.mem_filter.mp
                (List.mem_of_mem_filter hb2)).2
            exact ne_of_lt (lt_of_le_of_lt (hAle a ha) hb2gt)
          have hcompose : applyResyncAll
              (((first :: restRows).filter (fun s =>
                  s.text_value.getD "" ≠
                    (localTextFor items id_task s.remote_id).getD "")) ++
                resyncTargets source items id_task
                  ((first :: restRows).getLast
                    (List.cons_ne_nil first restRows)).remote_id)
              id_task hash_method now items =
              applyResyncAll (resyncTargets source items id_task
                  ((first :: restRows).getLast
                    (List.cons_ne_nil first restRows)).remote_id)
                id_task hash_method now
                (applyResyncAll ((first :: restRows).filter (fun s =>
                    s.text_value.getD "" ≠
                      (localTextFor items id_task s.remote_id).getD ""))
                  id_task hash_method now items) := by
            unfold applyResyncAll
            rw [List.map_map]
            refine List.map_congr_left ?_
            intro r _
            simp only [Function.comp]
            exact resyncRowEffect_append _ _ id_task hash_method now hdisjAB r
          rw [hitems2] at hstep
          refine ⟨?_, ?_, ?_⟩
          · rw [hstep, (ih _ _ _ _ hfuel2 hmax).1, hstable, hsplitT]
            exact hcompose.symm
          · rw [hstep, (ih _ _ _ _ hfuel2 hmax).2.1, hstable, hsplitT,
              List.length_append]
            by_cases hAe : (resyncBatchUpdates items id_task hash_method
                (first :: restRows)).isEmpty
            · have h0 : resyncBatchUpdates items id_task hash_method
                  (first :: restRows) = [] := List.isEmpty_iff.mp hAe
              have hA0 : ((first :: restRows).filter (fun s =>
                  s.text_value.getD "" ≠
                    (localTextFor items id_task s.remote_id).getD "")) = [] := by
                have h2 := hupd
                rw [h0] at h2
                exact List.map_eq_nil_iff.mp h2.symm
              rw [if_pos hAe, hA0]
              simp
            · rw [if_neg hAe]
              simp only [hupd, List.length_map]
              push_cast
              ring
          · rw [hstep, (ih _ _ _ _ hfuel2 hmax).2.2, hstable, hsplitT,
              List.length_append]
            simp only [hupd, List.length_map]
            omega
    · -- cursor at or past the ceiling: nothing in range
      have hFnil : source.filter (fun s => current < s.remote_id) = [] := by
        rw [List.filter_eq_nil_iff]
        intro s hs
        simp only [decide_eq_true_eq]
        intro hgt
        exact absurd (lt_of_lt_of_le hgt (hmax s hs)) hlt
      have htar : resyncTargets source items id_task current = [] := by
        unfold resyncTargets
        rw [hFnil]
        rfl
      rw [resyncLoop_stop_max source id_task hash_method batch_size
        marker_max_id now fuel current items task updatedTotal hlt, htar,
        applyResyncAll_nil]
      refine ⟨rfl, ?_, ?_⟩
      · simp
      · simp

theorem resyncRowEffect_frame (targets : List SourceRow) (id_task : Nat)
    (hash_method : String) (now : Nat) (r : TaskItemRow) :
    (resyncRowEffect targets id_task hash_method now r).id_task_item =
      r.id_task_item ∧
    (resyncRowEffect targets id_task hash_method now r).id_task = r.id_task ∧
    (resyncRowEffect targets id_task hash_method now r).remote_id =
      r.remote_id ∧
    (resyncRowEffect targets id_task hash_method now r).text_corrected =
      r.text_corrected ∧
    (resyncRowEffect targets id_task hash_method now r).status = r.status ∧
    (resyncRowEffect targets id_task hash_method now r).similarity_score =
      r.similarity_score ∧
    (resyncRowEffect targets id_task hash_method now r).tokens_input =
      r.tokens_input ∧
    (resyncRowEffect targets id_task hash_method now r).tokens_output =
      r.tokens_output ∧
    (resyncRowEffect targets id_task hash_method now r).ai_model =
      r.ai_model ∧
    (resyncRowEffect targets id_task hash_method now r).finish_reason =
      r.finish_reason ∧
    (resyncRowEffect targets id_task hash_method now r).processed_at =
      r.processed_at ∧
    ((∀ s ∈ targets, ¬(r.id_task = id_task ∧ r.remote_id = some s.remote_id)) →
      resyncRowEffect targets id_task hash_method now r = r) := by
  unfold resyncRowEffect
  cases hf : targets.find? (fun s =>
      r.id_task == id_task && r.remote_id == some s.remote_id) with
  | none =>
    exact ⟨rfl, rfl, rfl, rfl, rfl, rfl, rfl, rfl, rfl, rfl, rfl,
      fun h => rfl⟩
  | some s =>
    refine ⟨rfl, rfl, rfl, rfl, rfl, rfl, rfl, rfl, rfl, rfl, rfl, ?_⟩
    intro h
    have hp := List.find?_some hf
    have hmem := List.mem_of_find?_eq_some hf
    simp only [Bool.and_eq_true, beq_iff_eq] at hp
    exact absurd ⟨hp.1, hp.2⟩ (h s hmem)

theorem resyncLoop_marker_invariant (source : List SourceRow) (id_task : Nat)
    (hash_method : String) (batch_size : Nat) (marker_max_id : Int)
    (now : Nat) (fuel : Nat) :
    ∀ (current : Int) (items : List TaskItemRow) (t : TaskRow) (m : Int)
      (u : Nat),
      (resyncLoop source id_task hash_method batch_size marker_max_id now
        fuel current items { t with marker_id := m } u).1 =
      (resyncLoop source id_task hash_method batch_size marker_max_id now
        fuel current items t u).1 ∧
      (resyncLoop source id_task hash_method batch_size marker_max_id now
        fuel current items { t with marker_id := m } u).2.2 =
      (resyncLoop source id_task hash_method batch_size marker_max_id now
        fuel current items t u).2.2 ∧
      ∀ (q : Int) (f : Option String → Option String) (st : String),
        { (resyncLoop source id_task hash_method batch_size marker_max_id now
            fuel current items { t with marker_id := m } u).2.1 with
          description := f (resyncLoop source id_task hash_method batch_size
            marker_max_id now fuel current items { t with marker_id := m }
            u).2.1.description,
          sync_stage := st, marker_id := q } =
        { (resyncLoop source id_task hash_method batch_size marker_max_id now
            fuel current items t u).2.1 with
          description := f (resyncLoop source id_task hash_method batch_size
            marker_max_id now fuel current items t u).2.1.description,
          sync_stage := st, marker_id := q } := by
  cases fuel with
  | zero =>
    intro current items t m u
    exact ⟨rfl, rfl, fun q f st => rfl⟩
  | succ n =>
    intro current items t m u
    by_cases hlt : current < marker_max_id
    · rcases hrows : runFetchQuery source current batch_size with
        _ | ⟨first, restRows⟩
      · rw [resyncLoop_stop_empty source id_task hash_method batch_size
            marker_max_id now n current items { t with marker_id := m } u hlt
            hrows,
          resyncLoop_stop_empty source id_task hash_method batch_size
            marker_max_id now n current items t u hlt hrows]
        exact ⟨rfl, rfl, fun q f st => rfl⟩
      · rw [resyncLoop_step_cons source id_task hash_method batch_size
            marker_max_id now n current items { t with marker_id := m } u
            first restRows hlt hrows,
          resyncLoop_step_cons source id_task hash_method batch_size
            marker_max_id now n current items t u first restRows hlt hrows]
        exact ⟨rfl, rfl, fun q f st => rfl⟩
    · rw [resyncLoop_stop_max source id_task hash_method batch_size
          marker_max_id now n current items { t with marker_id := m } u hlt,
        resyncLoop_stop_max source id_task hash_method batch_size
          marker_max_id now n current items t u hlt]
      exact ⟨rfl, rfl, fun q f st => rfl⟩

/-- C6: a resync pass over already-fetched source rows rewrites exactly the
rows whose current source text differs from the locally stored text for the
same (task, remote id): the resulting item table is the pointwise
text/hash/timestamp rewrite of the differing rows, every other column of
every row (identity, status, corrected text and all AI fields) is preserved
and an untargeted row is returned verbatim, the task's records_updated grows
by exactly the number of differing rows, and the cursor is advanced across
the whole range — marker_id ends at marker_max_id and sync_stage at done even
when no batch produced a difference. -/
theorem resync_selectivity (source : List SourceRow) (batch_size : Nat)
    (task : TaskRow) (items : List TaskItemRow) (now : Nat)
    (hsorted : List.Pairwise (fun a b => a.remote_id < b.remote_id) source)
    (hb : 0 < batch_size)
    (hmax : ∀ s ∈ source, s.remote_id ≤ task.marker_max_id) :
    (resynch_remote_batch source batch_size task items now).1 =
      applyResyncAll
        (resyncTargets source items task.id_task
          (if task.marker_id ≥ task.marker_max_id then 0 else task.marker_id))
        task.id_task ((task.hash_method.getD "sha256").toLower) now items ∧
    List.Forall₂ (fun r r3 =>
        r3.id_task_item = r.id_task_item ∧ r3.id_task = r.id_task ∧
        r3.remote_id = r.remote_id ∧ r3.text_corrected = r.text_corrected ∧
        r3.status = r.status ∧ r3.similarity_score = r.similarity_score ∧
        r3.tokens_input = r.tokens_input ∧
        r3.tokens_output = r.tokens_output ∧ r3.ai_model = r.ai_model ∧
        r3.finish_reason = r.finish_reason ∧
        r3.processed_at = r.processed_at ∧
        ((∀ s ∈ resyncTargets source items task.id_task
            (if task.marker_id ≥ task.marker_max_id then 0
             else task.marker_id),
          ¬(r.id_task = task.id_task ∧ r.remote_id = some s.remote_id)) →
          r3 = r))
      items (resynch_remote_batch source batch_size task items now).1 ∧
    (resynch_remote_batch source batch_size task items
        now).2.records_updated =
      task.records_updated +
        ((resyncTargets source items task.id_task
          (if task.marker_id ≥ task.marker_max_id then 0
           else task.marker_id)).length : Int) ∧
    (resynch_remote_batch source batch_size task items now).2.marker_id =
      task.marker_max_id ∧
    (resynch_remote_batch source batch_size task items now).2.sync_stage =
      "done" := by
  have hfuel : (source.filter (fun s =>
      (if task.marker_id ≥ task.marker_max_id then 0
       else task.marker_id) < s.remote_id)).length < source.length + 1 :=
    Nat.lt_succ_of_le (List.length_filter_le _ _)
  have hloop := resyncLoop_spec source task.id_task
    ((task.hash_method.getD "sha256").toLower) batch_size task.marker_max_id
    now hsorted hb (source.length + 1)
    (if task.marker_id ≥ task.marker_max_id then 0 else task.marker_id)
    items task 0 hfuel hmax
  have hr1 : (resynch_remote_batch source batch_size task items now).1 =
      (resyncLoop source task.id_task
        ((task.hash_method.getD "sha256").toLower) batch_size
        task.marker_max_id now (source.length + 1)
        (if task.marker_id ≥ task.marker_max_id then 0 else task.marker_id)
        items task 0).1 := rfl
  refine ⟨?_, ?_, ?_, ?_, ?_⟩
  · rw [hr1]
    exact hloop.1
  · rw [hr1, hloop.1]
    unfold applyResyncAll
    rw [List.forall₂_map_right_iff, List.forall₂_same]
    intro r hr
    exact resyncRowEffect_frame
      (resyncTargets source items task.id_task
        (if task.marker_id ≥ task.marker_max_id then 0 else task.marker_id))
      task.id_task ((task.hash_method.getD "sha256").toLower) now r
  · exact hloop.2.1
  · rfl
  · rfl

/-- C6 witness: running the pass on the concrete three-row source against the
two concrete local rows stamps the task done with the differing-row count
added to records_updated. -/
theorem resync_selectivity_witness :
    (resynch_remote_batch c6Source 2 c6Task c6Items 5).2.records_updated =
      c6Task.records_updated +
        ((resyncTargets c6Source c6Items c6Task.id_task
          (if c6Task.marker_id ≥ c6Task.marker_max_id then 0
           else c6Task.marker_id)).length : Int) ∧
    (resynch_remote_batch c6Source 2 c6Task c6Items 5).2.sync_stage =
      "done" :=
  ⟨(resync_selectivity c6Source 2 c6Task c6Items 5 (by decide) (by decide)
      (by decide)).2.2.1,
   (resync_selectivity c6Source 2 c6Task c6Items 5 (by decide) (by decide)
      (by decide)).2.2.2.2⟩

/-- C10: when the stored resync cursor has already reached marker_max_id, the
pass resets it to zero and re-walks the entire range: the run is identical to
a run started with marker_id zero, and the items it produces are the full
text/hash/timestamp rewrite of every source row of the whole range whose text
differs from the local copy — not the untouched table an already-done pass
would leave. -/
theorem resync_cursor_reset (source : List SourceRow) (batch_size : Nat)
    (task : TaskRow) (items : List TaskItemRow) (now : Nat)
    (hsorted : List.Pairwise (fun a b => a.remote_id < b.remote_id) source)
    (hb : 0 < batch_size)
    (hmax : ∀ s ∈ source, s.remote_id ≤ task.marker_max_id)
    (hge : task.marker_max_id ≤ task.marker_id) :
    resynch_remote_batch source batch_size task items now =
      resynch_remote_batch source batch_size { task with marker_id := 0 }
        items now ∧
    (resynch_remote_batch source batch_size task items now).1 =
      applyResyncAll (resyncTargets source items task.id_task 0) task.id_task
        ((task.hash_method.getD "sha256").toLower) now items := by
  have hc0 : (if task.marker_id ≥ task.marker_max_id then 0
      else task.marker_id) = (0 : Int) := if_pos hge
  constructor
  · obtain ⟨hi1, hi2, hi3⟩ := resyncLoop_marker_invariant source task.id_task
      ((task.hash_method.getD "sha256").toLower) batch_size
      task.marker_max_id now (source.length + 1) 0 items task 0 0
    unfold resynch_remote_batch
    dsimp only
    rw [if_pos hge, ite_self]
    rw [Prod.mk.injEq]
    refine ⟨hi1.symm, ?_⟩
    rw [← hi2]
    exact (hi3 task.marker_max_id
      (fun d => appendLog d
        ("Resynchronizacja zakończona. Zaktualizowano " ++
         toString (resyncLoop source task.id_task
           ((task.hash_method.getD "sha256").toLower) batch_size
           task.marker_max_id now (source.length + 1) 0 items
           { task with marker_id := 0 } 0).2.2 ++ " rekordów."))
      "done").symm
  · have hfuel : (source.filter (fun s =>
        (0 : Int) < s.remote_id)).length < source.length + 1 :=
      Nat.lt_succ_of_le (List.length_filter_le _ _)
    have hr1 : (resynch_remote_batch source batch_size task items now).1 =
        (resyncLoop source task.id_task
          ((task.hash_method.getD "sha256").toLower) batch_size
          task.marker_max_id now (source.length + 1)
          (if task.marker_id ≥ task.marker_max_id then 0 else task.marker_id)
          items task 0).1 := rfl
    rw [hr1, hc0]
    exact (resyncLoop_spec source task.id_task
      ((task.hash_method.getD "sha256").toLower) batch_size
      task.marker_max_id now hsorted hb (source.length + 1) 0 items task 0
      hfuel hmax).1

/-- C10 witness: on the concrete data with the cursor already at the ceiling,
the pass equals the pass started from a zero cursor. -/
theorem resync_cursor_reset_witness :
    resynch_remote_batch c6Source 2 c10Task c6Items 5 =
      resynch_remote_batch c6Source 2 { c10Task with marker_id := 0 }
        c6Items 5 :=
  (resync_cursor_reset c6Source 2 c10Task c6Items 5 (by decide) (by decide)
    (by decide) (by decide)).1

end WorkerAi
